import Mathlib

/-!
Verification of the parking-game physics and collision subsystem.

The definitions below are a shallow embedding of the JavaScript class
`ParkingGame` (file `part_001` of the repository).  JavaScript numbers are
modelled as real numbers; `Math.hypot`, `Math.cos`, `Math.sin`, `Math.tan`
become `Real.sqrt`, `Real.cos`, `Real.sin`, `Real.tan`.  The `Date.now()`
clock is passed in as an explicit `now` parameter (all reads of the clock
inside one function call are treated as the same instant).  Source line
numbers in the comments refer to `part_001`.
-/

noncomputable section

/-- A 2D point or vector, the shape of the `{x, y}` object literals used
throughout the source. -/
@[ext]
structure Point where
  x : ℝ
  y : ℝ

/-- Source lines 586-604, `getRectangleCorners(cx, cy, width, height, angle)`:
half-extent corners rotated by `angle` and translated to the center. -/
def getRectangleCorners (cx cy width height angle : ℝ) : List Point :=
  let halfW := width / 2
  let halfH := height / 2
  let c := Real.cos angle
  let s := Real.sin angle
  [Point.mk (-halfW) (-halfH), Point.mk halfW (-halfH),
   Point.mk halfW halfH, Point.mk (-halfW) halfH].map
    (fun p => Point.mk (cx + p.x * c - p.y * s) (cy + p.x * s + p.y * c))

/-- Source lines 636-665, `getChamferedRectPolygon`: octagon approximating a
rounded rectangle, with the insets clamped to `[0, half-extent - 1]`. -/
def getChamferedRectPolygon (cx cy width height angle insetX insetY : ℝ) : List Point :=
  let halfW := width / 2
  let halfH := height / 2
  let ix := min (max insetX 0) (max 0 (halfW - 1))
  let iy := min (max insetY 0) (max 0 (halfH - 1))
  let local8 : List Point :=
    [Point.mk (-halfW + ix) (-halfH), Point.mk (halfW - ix) (-halfH),
     Point.mk halfW (-halfH + iy), Point.mk halfW (halfH - iy),
     Point.mk (halfW - ix) halfH, Point.mk (-halfW + ix) halfH,
     Point.mk (-halfW) (halfH - iy), Point.mk (-halfW) (-halfH + iy)]
  let c := Real.cos angle
  let s := Real.sin angle
  local8.map (fun p => Point.mk (cx + p.x * c - p.y * s) (cy + p.x * s + p.y * c))

/-- One loop iteration of `getAxes` (source lines 606-622): the normalized
perpendicular of the edge from `p1` to `p2`.  `Math.hypot(ax, ay) || 1`
becomes `if len = 0 then 1 else len`. -/
def axisForEdge (p1 p2 : Point) : Point :=
  let edgeX := p2.x - p1.x
  let edgeY := p2.y - p1.y
  let axisX := -edgeY
  let axisY := edgeX
  let len := Real.sqrt (axisX ^ 2 + axisY ^ 2)
  let len1 := if len = 0 then 1 else len
  Point.mk (axisX / len1) (axisY / len1)

/-- Rotation of a vertex list by one position; pairing a list with its
rotation reproduces the index pattern `(i, (i+1) % n)` of the source. -/
def cyc : List Point → List Point
  | [] => []
  | p :: ps => ps ++ [p]

/-- Source lines 606-622, `getAxes(points)`: one normalized edge normal per
edge, edges taken cyclically. -/
def getAxes (points : List Point) : List Point :=
  (points.zip (cyc points)).map (fun pq => axisForEdge pq.1 pq.2)

/-- Source lines 624-633, `projectPointsOnAxis(points, axis)`: the interval
`[min, max]` of dot products.  The source starts from the sentinels
`Infinity` and `-Infinity`; for a nonempty list that equals folding from the
first projection, which is how it is written here (the polygons used by the
game are always nonempty; the empty case returns a dummy `(0, 0)`). -/
def projectPointsOnAxis (points : List Point) (axis : Point) : ℝ × ℝ :=
  match points.map (fun p => p.x * axis.x + p.y * axis.y) with
  | [] => (0, 0)
  | v :: vs => (vs.foldl min v, vs.foldl max v)

/-- The separating-axis loop body shared verbatim by `polygonCollision`
(source lines 667-675) and `rectangleCollision` (source lines 569-584):
return `false` on the first axis whose projections are disjoint
(`max1 < min2 || max2 < min1`), else `true` after all axes. -/
def sepGo (A B : List Point) : List Point → Bool
  | [] => true
  | axis :: rest =>
    let pA := projectPointsOnAxis A axis
    let pB := projectPointsOnAxis B axis
    if pA.2 < pB.1 ∨ pB.2 < pA.1 then false else sepGo A B rest

/-- Source lines 667-675, `polygonCollision(pointsA, pointsB)`. -/
def polygonCollision (A B : List Point) : Bool :=
  sepGo A B (getAxes A ++ getAxes B)

/-- Source lines 569-584, `rectangleCollision`: the same SAT loop run on the
two rectangles' corner lists. -/
def rectangleCollision (x1 y1 w1 h1 a1 x2 y2 w2 h2 a2 : ℝ) : Bool :=
  let rect1 := getRectangleCorners x1 y1 w1 h1 a1
  let rect2 := getRectangleCorners x2 y2 w2 h2 a2
  sepGo rect1 rect2 (getAxes rect1 ++ getAxes rect2)

/-- Source lines 708-717, `getPolygonCenter(points)`: arithmetic mean of the
vertices, with the `1 / Math.max(points.length, 1)` guard. -/
def getPolygonCenter (points : List Point) : Point :=
  let sx := (points.map Point.x).sum
  let sy := (points.map Point.y).sum
  let inv := 1 / max (points.length : ℝ) 1
  Point.mk (sx * inv) (sy * inv)

/-- The projection overlap `Math.min(maxA, maxB) - Math.max(minA, minB)`
computed per axis in `polygonCollisionMTV` (source line 687). -/
def overlapOn (A B : List Point) (axis : Point) : ℝ :=
  let pA := projectPointsOnAxis A axis
  let pB := projectPointsOnAxis B axis
  min pA.2 pB.2 - max pA.1 pB.1

/-- Source lines 691-694: flip the axis so it points from A's center toward
B's center (`sign = delta . axis < 0 ? -1 : 1`). -/
def orientAxis (delta axis : Point) : Point :=
  if delta.x * axis.x + delta.y * axis.y < 0 then Point.mk (-axis.x) (-axis.y)
  else Point.mk axis.x axis.y

/-- The result object of `polygonCollisionMTV`: either `{collides: false}`
or `{collides: true, mtv}`. -/
inductive MTVResult where
  | noCollision : MTVResult
  | collision (mtv : Point) : MTVResult

/-- Source lines 697-705: the returned mtv, `separatingAxis` scaled by
`smallestOverlap`, with the `(0, 0)` fallback when no axis was recorded.
The tracked state `(smallestOverlap, separatingAxis)` starts as
`(Infinity, null)` in the source and the two components are always updated
together, so the pair is modelled as one `Option`. -/
def mtvFinal : Option (ℝ × Point) → Point
  | some sa => Point.mk (sa.2.x * sa.1) (sa.2.y * sa.1)
  | none => Point.mk 0 0

/-- The loop of `polygonCollisionMTV` (source lines 684-696) over the axis
list, carrying the smallest positive overlap seen so far and its oriented
axis.  Any axis with overlap `<= 0` exits immediately with no collision. -/
def mtvGo (A B : List Point) (delta : Point) : List Point → Option (ℝ × Point) → MTVResult
  | [], st => MTVResult.collision (mtvFinal st)
  | axis :: rest, st =>
    let ov := overlapOn A B axis
    if ov ≤ 0 then MTVResult.noCollision
    else
      match st with
      | none => mtvGo A B delta rest (some (ov, orientAxis delta axis))
      | some (s, a) =>
        if ov < s then mtvGo A B delta rest (some (ov, orientAxis delta axis))
        else mtvGo A B delta rest (some (s, a))

/-- The center-to-center vector `delta` of source line 692. -/
def centerDelta (A B : List Point) : Point :=
  let cA := getPolygonCenter A
  let cB := getPolygonCenter B
  Point.mk (cB.x - cA.x) (cB.y - cA.y)

/-- Source lines 678-706, `polygonCollisionMTV(pointsA, pointsB)`. -/
def polygonCollisionMTV (A B : List Point) : MTVResult :=
  mtvGo A B (centerDelta A B) (getAxes A ++ getAxes B) none

/-- One iteration of the minimum-overlap tracking of `polygonCollisionMTV`
(source lines 689-695) as a fold step, used to characterize the loop. -/
def mtvStep (A B : List Point) (d : Point) (st : Option (ℝ × Point)) (ax : Point) :
    Option (ℝ × Point) :=
  let ov := overlapOn A B ax
  match st with
  | none => some (ov, orientAxis d ax)
  | some (s, a) => if ov < s then some (ov, orientAxis d ax) else some (s, a)

/-! ### Game state (class fields of `ParkingGame`, source lines 39-173) -/

/-- The player car record, source lines 49-68. -/
structure Car where
  x : ℝ
  y : ℝ
  width : ℝ
  height : ℝ
  angle : ℝ
  speed : ℝ
  maxSpeed : ℝ
  acceleration : ℝ
  friction : ℝ
  steerAngle : ℝ
  maxSteerAngle : ℝ
  wheelbase : ℝ
  steerChangeRate : ℝ
  collisionInsetX : ℝ
  collisionInsetY : ℝ
  collided : Bool
  lastDirection : ℝ

/-- The key state, source lines 71-76. -/
structure Keys where
  up : Bool
  down : Bool
  left : Bool
  right : Bool

/-- A parked (NPC) car record, source lines 79-98. -/
structure Obstacle where
  x : ℝ
  y : ℝ
  width : ℝ
  height : ℝ
  angle : ℝ
  collisionInsetX : ℝ
  collisionInsetY : ℝ

/-- The parking space record, source lines 100-105. -/
structure ParkSpace where
  x : ℝ
  y : ℝ
  width : ℝ
  height : ℝ

/-- The `lastCollision` diagnostic, source lines 536 and 560: which kind of
obstacle was hit (the curb rectangle itself is derivable from the state, so
its payload is not repeated here). -/
inductive LastCollision where
  | withCar (o : Obstacle) : LastCollision
  | withCurb : LastCollision

/-- The mutable fields of the `ParkingGame` instance that the physics,
collision and level-progression code reads or writes.  Rendering-only fields
(textures, debug flag, drag offsets, UI handles) are omitted. -/
structure GameState where
  canvasWidth : ℝ
  canvasHeight : ℝ
  centerX : ℝ
  centerY : ℝ
  car : Car
  keys : Keys
  parkedCars : List Obstacle
  parkingSpace : ParkSpace
  gapBetweenCars : ℝ
  minGap : ℝ
  gapStep : ℝ
  winCount : ℕ
  winLatched : Bool
  curbWidth : ℝ
  curbHeight : ℝ
  curbOffsetY : ℝ
  laneGapFromCurb : ℝ
  isDragging : Bool
  winResetDelayMs : ℝ
  winResetAtMs : Option ℝ
  collisionFlashDurationMs : ℝ
  collisionFlashUntilMs : ℝ
  collisionBounceSpeed : ℝ
  collisionBounceDurationMs : ℝ
  collisionBounceUntilMs : ℝ
  collisionBounceDir : Point
  collisionMTV : Option Point
  lastCollision : Option LastCollision

/-! ### Vehicle kinematics (source lines 347-483, `updateCar`) -/

/-- Throttle and friction, source lines 363-389. -/
def speedAfterInput (car : Car) (keys : Keys) (dt : ℝ) : ℝ :=
  if keys.up then min (car.speed + car.acceleration * dt) car.maxSpeed
  else if keys.down then max (car.speed - car.acceleration * dt) (-car.maxSpeed)
  else if car.speed > 0 then max 0 (car.speed - car.friction * dt)
  else if car.speed < 0 then min 0 (car.speed + car.friction * dt)
  else car.speed

/-- The `lastDirection` update folded into the throttle branches
(source lines 365 and 371). -/
def lastDirectionAfterInput (car : Car) (keys : Keys) : ℝ :=
  if keys.up then 1 else if keys.down then -1 else car.lastDirection

/-- Steering, source lines 392-404 (no self-centering). -/
def steerAfterInput (car : Car) (keys : Keys) (dt : ℝ) : ℝ :=
  if keys.left then max (car.steerAngle - car.steerChangeRate * dt) (-car.maxSteerAngle)
  else if keys.right then min (car.steerAngle + car.steerChangeRate * dt) car.maxSteerAngle
  else car.steerAngle

/-- Heading update, source lines 406-420: only when `|speed| > 0.05` and
`|steerAngle| > 0.01`; `turnRadius = wheelbase / tan(|steerAngle|)` and
`angularVelocity = speed / turnRadius` (signed by `speed`). -/
def angleAfterTurn (angle speed steerAngle wheelbase dt : ℝ) : ℝ :=
  if |speed| > 0.05 ∧ |steerAngle| > 0.01 then
    let turnRadius := wheelbase / Real.tan |steerAngle|
    let angularVelocity := speed / turnRadius
    if steerAngle > 0 then angle + angularVelocity * dt
    else angle - angularVelocity * dt
  else angle

/-- The kinematics part of a physics tick (source lines 363-428): throttle,
steering, heading update, then the position integration
`x += cos(angle) * speed * dt; y += sin(angle) * speed * dt`. -/
def movedState (s : GameState) (dt : ℝ) : GameState :=
  let speed1 := speedAfterInput s.car s.keys dt
  let steer1 := steerAfterInput s.car s.keys dt
  let angle1 := angleAfterTurn s.car.angle speed1 steer1 s.car.wheelbase dt
  { s with car := { s.car with
      speed := speed1,
      steerAngle := steer1,
      angle := angle1,
      lastDirection := lastDirectionAfterInput s.car s.keys,
      x := s.car.x + Real.cos angle1 * speed1 * dt,
      y := s.car.y + Real.sin angle1 * speed1 * dt } }

/-- Horizontal wrap, source lines 458-462 (`if`/`else if`). -/
def wrapX (canvasW halfW x : ℝ) : ℝ :=
  if x < -halfW then canvasW + halfW
  else if x > canvasW + halfW then -halfW
  else x

/-- Horizontal wrap as written in the bounce block, source lines 479-480:
two sequential `if` statements (equivalent to `wrapX` pointwise). -/
def wrapXSeq (canvasW halfW x : ℝ) : ℝ :=
  let x1 := if x < -halfW then canvasW + halfW else x
  if x1 > canvasW + halfW then -halfW else x1

/-- Vertical clamp to the 45 px inset margin, source lines 463 and 481. -/
def clampY (canvasH y : ℝ) : ℝ := max 45 (min (canvasH - 45) y)

/-- Bounce direction from the mtv, source lines 441-450: the negated,
normalized mtv (`Math.hypot(mtv.x, mtv.y) || 1`).  The `else` fallback of
the source (reverse of the heading) is dead code in a collision tick because
`checkCollisions` has just stored a non-null mtv. -/
def bounceDirOf (m : Point) : Point :=
  let len := Real.sqrt (m.x ^ 2 + m.y ^ 2)
  let len1 := if len = 0 then 1 else len
  Point.mk (-m.x / len1) (-m.y / len1)

/-- Bounce-back impulse application, source lines 465-482: quadratic
ease-out scale over the remaining impulse time, then re-wrap and re-clamp. -/
def applyBounce (s : GameState) (dt now : ℝ) : GameState :=
  if now < s.collisionBounceUntilMs then
    let remaining := s.collisionBounceUntilMs - now
    let t := max 0 (min 1 (remaining / s.collisionBounceDurationMs))
    let scale := t * t
    let v := s.collisionBounceSpeed * scale * dt
    let x1 := s.car.x + s.collisionBounceDir.x * v
    let y1 := s.car.y + s.collisionBounceDir.y * v
    let halfW2 := s.car.width / 2
    { s with car := { s.car with
        x := wrapXSeq s.canvasWidth halfW2 x1,
        y := clampY s.canvasHeight y1 } }
  else s

/-! ### Collision query (source lines 513-567, `checkCollisions`) -/

/-- The chamfered collision polygon of an NPC car (source lines 525-533;
`parkedCar.collisionInsetX || 0` is the identity on a real-valued field). -/
def obstaclePoly (o : Obstacle) : List Point :=
  getChamferedRectPolygon o.x o.y o.width o.height o.angle o.collisionInsetX o.collisionInsetY

/-- The chamfered collision polygon of the player car, source lines 515-523. -/
def playerPoly (s : GameState) : List Point :=
  getChamferedRectPolygon s.car.x s.car.y s.car.width s.car.height s.car.angle
    s.car.collisionInsetX s.car.collisionInsetY

/-- The `for (let parkedCar of this.parkedCars)` loop of source lines
524-540: the first NPC car whose polygon collides, with its mtv. -/
def npcCollideLoop (pp : List Point) : List Obstacle → Option (LastCollision × Point)
  | [] => none
  | o :: rest =>
    match polygonCollisionMTV pp (obstaclePoly o) with
    | MTVResult.collision m => some (LastCollision.withCar o, m)
    | MTVResult.noCollision => npcCollideLoop pp rest

/-- Source lines 513-567, `checkCollisions`: NPC cars first, then the
centered curb rectangle.  Returns the recorded `lastCollision` label and the
mtv when a contact is found (the source stores these in instance fields and
returns `true`). -/
def checkCollisions (s : GameState) : Option (LastCollision × Point) :=
  let pp := playerPoly s
  match npcCollideLoop pp s.parkedCars with
  | some r => some r
  | none =>
    let curbPoly := getRectangleCorners s.centerX
      (s.centerY + s.curbOffsetY + s.curbHeight / 2) s.curbWidth s.curbHeight 0
    match polygonCollisionMTV pp curbPoly with
    | MTVResult.collision m => some (LastCollision.withCurb, m)
    | MTVResult.noCollision => none

/-- Source lines 347-483, `updateCar(dtSeconds)`: win-linger freeze, drag
pause, kinematics, collision rollback with bounce setup, horizontal wrap,
vertical clamp, then the bounce impulse for this tick. -/
def updateCar (s : GameState) (dt now : ℝ) : GameState :=
  match s.winResetAtMs with
  | some _ => { s with car := { s.car with speed := 0 } }
  | none =>
    if s.isDragging then
      { s with car := { s.car with
          speed := 0,
          x := max 45 (min (s.canvasWidth - 45) s.car.x),
          y := max 45 (min (s.canvasHeight - 45) s.car.y),
          collided := false } }
    else
      let prevX := s.car.x
      let prevY := s.car.y
      let s1 := movedState s dt
      let s2 : GameState :=
        match checkCollisions s1 with
        | some im =>
          { s1 with
            car := { s1.car with x := prevX, y := prevY, speed := 0, collided := true },
            lastCollision := some im.1,
            collisionMTV := some im.2,
            collisionFlashUntilMs := now + s.collisionFlashDurationMs,
            collisionBounceDir := bounceDirOf im.2,
            collisionBounceUntilMs := now + s.collisionBounceDurationMs }
        | none => { s1 with car := { s1.car with collided := false } }
      let halfW := s2.car.width / 2
      let s3 := { s2 with car := { s2.car with
          x := wrapX s2.canvasWidth halfW s2.car.x,
          y := clampY s2.canvasHeight s2.car.y } }
      applyBounce s3 dt now

/-! ### Level manager (source lines 1020-1069, `checkParking`) -/

/-- Truncating division remainder: the semantics of the JavaScript `%`
operator on numbers (round the quotient toward zero). -/
def jsTrunc (x : ℝ) : ℤ := if 0 ≤ x then ⌊x⌋ else ⌈x⌉

/-- `x % y` of JavaScript for `y > 0`. -/
def jsRem (x y : ℝ) : ℝ := x - y * (jsTrunc (x / y) : ℝ)

/-- The `inSpace` test of source lines 1021-1025 (strict inequalities on the
car center against the parking-space bounds). -/
def inSpace (s : GameState) : Prop :=
  s.car.x > s.parkingSpace.x - s.parkingSpace.width / 2 ∧
  s.car.x < s.parkingSpace.x + s.parkingSpace.width / 2 ∧
  s.car.y > s.parkingSpace.y - s.parkingSpace.height / 2 ∧
  s.car.y < s.parkingSpace.y + s.parkingSpace.height / 2

/-- The `wellAligned` test of source lines 1027-1029, with the JavaScript
remainder `angle % (Math.PI * 2)`. -/
def wellAligned (angle : ℝ) : Prop :=
  |jsRem angle (Real.pi * 2)| < 0.2 ∨ |jsRem angle (Real.pi * 2) - Real.pi * 2| < 0.2

/-- The win condition of source line 1031. -/
def winCondition (s : GameState) : Prop :=
  inSpace s ∧ wellAligned s.car.angle ∧ |s.car.speed| < 0.1

instance inSpaceDecidable (s : GameState) : Decidable (inSpace s) := by
  unfold inSpace
  infer_instance

instance wellAlignedDecidable (a : ℝ) : Decidable (wellAligned a) := by
  unfold wellAligned
  infer_instance

instance winConditionDecidable (s : GameState) : Decidable (winCondition s) := by
  unfold winCondition
  infer_instance

/-- The gap update on a level transition, source lines 1056-1059:
`gap = max(minGap, gap - gapStep)`. -/
def levelGapStep (minGap gapStep g : ℝ) : ℝ := max minGap (g - gapStep)

/-- Source lines 264-274, `setInitialCarPosition`. -/
def setInitialCarPosition (s : GameState) : GameState :=
  let curbTop := s.centerY + s.curbOffsetY
  let laneYInit := curbTop - s.laneGapFromCurb - s.car.height - 50
  { s with car := { s.car with
      x := s.centerX - (s.gapBetweenCars / 2 + s.car.width) - 100,
      y := laneYInit,
      speed := 0,
      steerAngle := 0,
      lastDirection := 1,
      angle := 0 } }

/-- Source lines 215-238, `recomputeParkingLayout` (UI label updates
omitted).  The source indexes `parkedCars[0]` and `parkedCars[1]`; the game
always has exactly two parked cars, so a shorter list is left unchanged. -/
def recomputeParkingLayout (s : GameState) : GameState :=
  let curbTop := s.centerY + s.curbOffsetY
  let laneY := curbTop - s.laneGapFromCurb - s.parkingSpace.height / 2
  match s.parkedCars with
  | c0 :: c1 :: rest =>
    let offset := (s.gapBetweenCars + c0.width) / 2
    { s with
      parkingSpace := { x := s.centerX, y := laneY,
                        width := s.gapBetweenCars, height := s.parkingSpace.height },
      parkedCars :=
        { c0 with x := s.centerX - offset, y := laneY } ::
        { c1 with x := s.centerX + offset, y := laneY } :: rest }
  | _ => s

/-- The win-detection half of `checkParking`, source lines 1020-1050: latch
a win and schedule the pending reset timestamp, or clear the latch when the
win condition fails and no reset is pending. -/
def winLatchStep (s : GameState) (now : ℝ) : GameState :=
  if winCondition s then
    if s.winLatched then s
    else { s with winLatched := true, winResetAtMs := some (now + s.winResetDelayMs) }
  else
    match s.winResetAtMs with
    | none => { s with winLatched := false }
    | some _ => s

/-- The timer half of `checkParking`, source lines 1052-1068: once the
pending timestamp is due, bump the win count, shrink the gap with the floor,
recompute the layout, reset the car, and clear the win state. -/
def winTimerStep (s : GameState) (now : ℝ) : GameState :=
  match s.winResetAtMs with
  | some t =>
    if t ≤ now then
      let s2 := { s with
        winCount := s.winCount + 1,
        gapBetweenCars := levelGapStep s.minGap s.gapStep s.gapBetweenCars }
      let s3 := recomputeParkingLayout s2
      let s4 := setInitialCarPosition s3
      { s4 with winResetAtMs := none, winLatched := false }
    else s
  | none => s

/-- Source lines 1020-1069, `checkParking` (drawing calls omitted): the
win-detection half followed by the timer half. -/
def checkParking (s : GameState) (now : ℝ) : GameState :=
  winTimerStep (winLatchStep s now) now

/-- The gap after `n` level transitions from the initial 200 px gap with the
game's `minGap = 60` and `gapStep = 20`. -/
def gapAfterWins (n : ℕ) : ℝ := (levelGapStep 60 20)^[n] 200

/-- The constructor state, source lines 40-173 (rendering and event wiring
omitted): field initialization, then `setInitialCarPosition`, then
`recomputeParkingLayout`. -/
def initState (canvasW canvasH : ℝ) : GameState :=
  let cX := canvasW / 2
  let cY := canvasH / 2
  let base : GameState :=
    { canvasWidth := canvasW, canvasHeight := canvasH, centerX := cX, centerY := cY,
      car := { x := 100, y := 300, width := 90, height := 45, angle := 0, speed := 0,
               maxSpeed := 360, acceleration := 100, friction := 300, steerAngle := 0,
               maxSteerAngle := Real.pi / 6, wheelbase := 70, steerChangeRate := 0.8,
               collisionInsetX := 8, collisionInsetY := 6, collided := false,
               lastDirection := 1 },
      keys := { up := false, down := false, left := false, right := false },
      parkedCars :=
        [{ x := cX - 120, y := cY, width := 90, height := 45, angle := 0,
           collisionInsetX := 8, collisionInsetY := 6 },
         { x := cX + 120, y := cY, width := 90, height := 45, angle := 0,
           collisionInsetX := 8, collisionInsetY := 6 }],
      parkingSpace := { x := cX, y := cY, width := 150, height := 60 },
      gapBetweenCars := 200, minGap := 60, gapStep := 20,
      winCount := 0, winLatched := false,
      curbWidth := canvasW, curbHeight := 30, curbOffsetY := 160, laneGapFromCurb := 10,
      isDragging := false, winResetDelayMs := 1200, winResetAtMs := none,
      collisionFlashDurationMs := 120, collisionFlashUntilMs := 0,
      collisionBounceSpeed := 220, collisionBounceDurationMs := 140,
      collisionBounceUntilMs := 0, collisionBounceDir := Point.mk 0 0,
      collisionMTV := none, lastCollision := none }
  recomputeParkingLayout (setInitialCarPosition base)

/-- States reachable by the operations the host wires to the game: the
constructor, an animation frame (`updateCar` with the clamped nonnegative
`dt`, then `render`, which calls `checkParking`), key events, the drag
handlers of source lines 319-345, and the gap slider of source lines
193-204 (range 60 to 360). -/
inductive Reachable : GameState → Prop where
  | init (cw ch : ℝ) : Reachable (initState cw ch)
  | frame (s : GameState) (dt now now2 : ℝ) (h : Reachable s) (hdt : 0 ≤ dt) :
      Reachable (checkParking (updateCar s dt now) now2)
  | setKeys (s : GameState) (k : Keys) (h : Reachable s) : Reachable { s with keys := k }
  | dragStart (s : GameState) (h : Reachable s) :
      Reachable { s with isDragging := true, car := { s.car with speed := 0 } }
  | dragMove (s : GameState) (tx ty : ℝ) (h : Reachable s) (hd : s.isDragging = true) :
      Reachable { s with car := { s.car with
        x := max 45 (min (s.canvasWidth - 45) tx),
        y := max 45 (min (s.canvasHeight - 45) ty),
        collided := false } }
  | dragEnd (s : GameState) (h : Reachable s) : Reachable { s with isDragging := false }
  | setGap (s : GameState) (g : ℝ) (h : Reachable s) (hg1 : 60 ≤ g) (hg2 : g ≤ 360) :
      Reachable (recomputeParkingLayout { s with gapBetweenCars := g })

/-- The clamping invariant of the car record used for C9: nonnegative rate
constants and bounded speed and steer angle. -/
def CarInv (c : Car) : Prop :=
  0 ≤ c.maxSpeed ∧ 0 ≤ c.maxSteerAngle ∧ 0 ≤ c.acceleration ∧ 0 ≤ c.friction ∧
  0 ≤ c.steerChangeRate ∧ |c.speed| ≤ c.maxSpeed ∧ |c.steerAngle| ≤ c.maxSteerAngle

/-- A concrete state used to exercise a collision tick: the canvas is
800 by 600, the NPC list is empty, and the stationary player car at
(400, 466) overlaps the curb rectangle (which spans y in [460, 490]). -/
def wState : GameState :=
  { canvasWidth := 800, canvasHeight := 600, centerX := 400, centerY := 300,
    car := { x := 400, y := 466, width := 90, height := 45, angle := 0, speed := 0,
             maxSpeed := 360, acceleration := 100, friction := 300, steerAngle := 0,
             maxSteerAngle := Real.pi / 6, wheelbase := 70, steerChangeRate := 0.8,
             collisionInsetX := 8, collisionInsetY := 6, collided := false,
             lastDirection := 1 },
    keys := { up := false, down := false, left := false, right := false },
    parkedCars := [],
    parkingSpace := { x := 400, y := 420, width := 200, height := 60 },
    gapBetweenCars := 200, minGap := 60, gapStep := 20,
    winCount := 0, winLatched := false,
    curbWidth := 800, curbHeight := 30, curbOffsetY := 160, laneGapFromCurb := 10,
    isDragging := false, winResetDelayMs := 1200, winResetAtMs := none,
    collisionFlashDurationMs := 120, collisionFlashUntilMs := 0,
    collisionBounceSpeed := 220, collisionBounceDurationMs := 140,
    collisionBounceUntilMs := 0, collisionBounceDir := Point.mk 0 0,
    collisionMTV := none, lastCollision := none }

/-- A concrete state with the car centered in the parking space but facing
backwards (heading pi), used to exercise the win-condition check. -/
def c6State : GameState :=
  { initState 800 600 with
    car := { (initState 800 600).car with x := 400, y := 420, angle := Real.pi } }

/-- The chamfered collision polygon of the car of `wState` (center
(400, 466), 90 by 45, insets 8 and 6, angle 0), written out. -/
def wPlayerPts : List Point :=
  [Point.mk 363 (887/2), Point.mk 437 (887/2), Point.mk 445 (899/2), Point.mk 445 (965/2),
   Point.mk 437 (977/2), Point.mk 363 (977/2), Point.mk 355 (965/2), Point.mk 355 (899/2)]

/-- The curb rectangle corners of `wState` (center (400, 475), 800 by 30,
angle 0), written out. -/
def wCurbPts : List Point :=
  [Point.mk 0 460, Point.mk 800 460, Point.mk 800 490, Point.mk 0 490]

/-! ### Basic facts about the geometry kernel -/

lemma cyc_length (ps : List Point) : (cyc ps).length = ps.length := by
  cases ps <;> simp [cyc]

lemma getAxes_length (ps : List Point) : (getAxes ps).length = ps.length := by
  simp [getAxes, cyc_length]

lemma getAxes_ne_nil (ps : List Point) (h : ps ≠ []) : getAxes ps ≠ [] := by
  intro hc
  apply h
  have h2 := getAxes_length ps
  rw [hc] at h2
  exact List.length_eq_zero.mp h2.symm

lemma foldl_min_le_init (v : ℝ) (l : List ℝ) : List.foldl min v l ≤ v := by
  induction l generalizing v with
  | nil => exact le_refl v
  | cons a t ih => exact le_trans (ih (min v a)) (min_le_left v a)

lemma init_le_foldl_max (v : ℝ) (l : List ℝ) : v ≤ List.foldl max v l := by
  induction l generalizing v with
  | nil => exact le_refl v
  | cons a t ih => exact le_trans (le_max_left v a) (ih (max v a))

lemma projFst_le_projSnd (ps : List Point) (ax : Point) (h : ps ≠ []) :
    (projectPointsOnAxis ps ax).1 ≤ (projectPointsOnAxis ps ax).2 := by
  cases ps with
  | nil => exact absurd rfl h
  | cons p t =>
    simp only [projectPointsOnAxis, List.map]
    exact le_trans (foldl_min_le_init _ _) (init_le_foldl_max _ _)

lemma sepCond_iff (A B : List Point) (ax : Point) (hA : A ≠ []) (hB : B ≠ []) :
    ((projectPointsOnAxis A ax).2 < (projectPointsOnAxis B ax).1 ∨
      (projectPointsOnAxis B ax).2 < (projectPointsOnAxis A ax).1) ↔
    overlapOn A B ax < 0 := by
  have h1 := projFst_le_projSnd A ax hA
  have h2 := projFst_le_projSnd B ax hB
  unfold overlapOn
  constructor
  · intro h
    rcases h with h | h
    · have h3 := min_le_left (projectPointsOnAxis A ax).2 (projectPointsOnAxis B ax).2
      have h4 := le_max_right (projectPointsOnAxis A ax).1 (projectPointsOnAxis B ax).1
      simp only []
      linarith
    · have h3 := min_le_right (projectPointsOnAxis A ax).2 (projectPointsOnAxis B ax).2
      have h4 := le_max_left (projectPointsOnAxis A ax).1 (projectPointsOnAxis B ax).1
      simp only []
      linarith
  · intro h
    have h3 : min (projectPointsOnAxis A ax).2 (projectPointsOnAxis B ax).2 <
        max (projectPointsOnAxis A ax).1 (projectPointsOnAxis B ax).1 := by
      simp only [] at h
      linarith
    rcases min_lt_iff.mp h3 with h4 | h4 <;> rcases lt_max_iff.mp h4 with h5 | h5
    · linarith
    · exact Or.inl h5
    · exact Or.inr h5
    · linarith

lemma sepGo_false_iff (A B : List Point) (axs : List Point) :
    sepGo A B axs = false ↔
      ∃ ax ∈ axs, ((projectPointsOnAxis A ax).2 < (projectPointsOnAxis B ax).1 ∨
                   (projectPointsOnAxis B ax).2 < (projectPointsOnAxis A ax).1) := by
  induction axs with
  | nil => simp [sepGo]
  | cons ax rest ih =>
    by_cases h : ((projectPointsOnAxis A ax).2 < (projectPointsOnAxis B ax).1 ∨
                  (projectPointsOnAxis B ax).2 < (projectPointsOnAxis A ax).1)
    · simp [sepGo, h]
    · simp [sepGo, h, ih]

lemma mtvGo_noCollision_iff (A B : List Point) (d : Point) (axs : List Point) :
    ∀ st, mtvGo A B d axs st = MTVResult.noCollision ↔
      ∃ ax ∈ axs, overlapOn A B ax ≤ 0 := by
  induction axs with
  | nil => intro st; simp [mtvGo]
  | cons ax rest ih =>
    intro st
    by_cases h : overlapOn A B ax ≤ 0
    · simp [mtvGo, h]
    · cases st with
      | none => simp [mtvGo, h, ih]
      | some p =>
        obtain ⟨sv, av⟩ := p
        by_cases h2 : overlapOn A B ax < sv
        · simp [mtvGo, h, h2, ih]
        · simp [mtvGo, h, h2, ih]

lemma mtvGo_allpos (A B : List Point) (d : Point) (axs : List Point) :
    ∀ st, (∀ ax ∈ axs, 0 < overlapOn A B ax) →
      mtvGo A B d axs st =
        MTVResult.collision (mtvFinal (List.foldl (mtvStep A B d) st axs)) := by
  induction axs with
  | nil => intro st _; rfl
  | cons ax rest ih =>
    intro st h
    have hpos : 0 < overlapOn A B ax := h ax (by simp)
    have hnle : ¬ overlapOn A B ax ≤ 0 := not_le.mpr hpos
    have hrest : ∀ ax2 ∈ rest, 0 < overlapOn A B ax2 := fun ax2 hm => h ax2 (by simp [hm])
    cases st with
    | none =>
      simp only [mtvGo, hnle, if_false, List.foldl_cons]
      rw [ih _ hrest]
      rfl
    | some p =>
      obtain ⟨sv, av⟩ := p
      by_cases h2 : overlapOn A B ax < sv
      · simp only [mtvGo, hnle, if_false, h2, if_true, List.foldl_cons]
        rw [ih _ hrest]
        simp [mtvStep, h2]
      · simp only [mtvGo, hnle, if_false, h2, if_true, List.foldl_cons]
        rw [ih _ hrest]
        simp [mtvStep, h2]

lemma foldl_mtvStep_some (A B : List Point) (d : Point) (axs : List Point) :
    ∀ p1 : ℝ, ∀ p2 : Point,
      ∃ q : ℝ × Point,
        List.foldl (mtvStep A B d) (some (p1, p2)) axs = some q ∧
        (q = (p1, p2) ∨ ∃ ax ∈ axs, q = (overlapOn A B ax, orientAxis d ax)) ∧
        q.1 ≤ p1 ∧
        (∀ ax ∈ axs, q.1 ≤ overlapOn A B ax) := by
  induction axs with
  | nil =>
    intro p1 p2
    exact ⟨(p1, p2), rfl, Or.inl rfl, le_refl _, by simp⟩
  | cons ax rest ih =>
    intro p1 p2
    by_cases h : overlapOn A B ax < p1
    · obtain ⟨q, hq, hsrc, hle, hall⟩ := ih (overlapOn A B ax) (orientAxis d ax)
      refine ⟨q, ?_, ?_, ?_, ?_⟩
      · rw [List.foldl_cons]
        have hstep : mtvStep A B d (some (p1, p2)) ax =
            some (overlapOn A B ax, orientAxis d ax) := by
          simp [mtvStep, h]
        rw [hstep]
        exact hq
      · rcases hsrc with h6 | ⟨axm, hmm, hh⟩
        · exact Or.inr ⟨ax, by simp, h6⟩
        · exact Or.inr ⟨axm, by simp [hmm], hh⟩
      · exact le_trans hle (le_of_lt h)
      · intro ax2 hm2
        rcases List.mem_cons.mp hm2 with rfl | hm3
        · exact hle
        · exact hall ax2 hm3
    · obtain ⟨q, hq, hsrc, hle, hall⟩ := ih p1 p2
      refine ⟨q, ?_, ?_, ?_, ?_⟩
      · rw [List.foldl_cons]
        have hstep : mtvStep A B d (some (p1, p2)) ax = some (p1, p2) := by
          simp [mtvStep, h]
        rw [hstep]
        exact hq
      · rcases hsrc with h6 | ⟨axm, hmm, hh⟩
        · exact Or.inl h6
        · exact Or.inr ⟨axm, by simp [hmm], hh⟩
      · exact hle
      · intro ax2 hm2
        rcases List.mem_cons.mp hm2 with rfl | hm3
        · exact le_trans hle (not_lt.mp h)
        · exact hall ax2 hm3

lemma orient_dot_nonneg (d ax : Point) :
    0 ≤ (orientAxis d ax).x * d.x + (orientAxis d ax).y * d.y := by
  unfold orientAxis
  by_cases h : d.x * ax.x + d.y * ax.y < 0
  · simp only [h, if_true]
    nlinarith [h]
  · simp only [h, if_false]
    push_neg at h
    nlinarith [h]

lemma sqrt_eval (a b : ℝ) (hb : 0 ≤ b) (h : b ^ 2 = a) : Real.sqrt a = b := by
  rw [← h]
  exact Real.sqrt_sq hb

lemma axisForEdge_eval (p q : Point) (ex ey L : ℝ)
    (hex : q.x - p.x = ex) (hey : q.y - p.y = ey)
    (hL0 : 0 < L) (hsq : L ^ 2 = (-ey) ^ 2 + ex ^ 2) :
    axisForEdge p q = Point.mk (-ey / L) (ex / L) := by
  simp only [axisForEdge]
  rw [hex, hey, sqrt_eval _ _ (le_of_lt hL0) hsq, if_neg (ne_of_gt hL0)]

lemma axisForEdge_self (p : Point) : axisForEdge p p = Point.mk 0 0 := by
  simp [axisForEdge]

lemma getAxes_unitSq01 :
    getAxes [Point.mk 0 0, Point.mk 1 0, Point.mk 1 1, Point.mk 0 1] =
      [Point.mk 0 1, Point.mk (-1) 0, Point.mk 0 (-1), Point.mk 1 0] := by
  norm_num [getAxes, cyc, axisForEdge, Real.sqrt_one, Point.ext_iff]

/-- C1: `polygonCollisionMTV` examines the union of both polygons' edge-normal
axes; it reports no collision exactly when some axis has projection overlap
`<= 0`, and otherwise reports a collision whose mtv is an axis of smallest
overlap, oriented toward B's centroid as seen from A's centroid (nonnegative
dot product with the centroid difference) and scaled by that smallest
overlap. -/
theorem mtv_axis_union_spec (A B : List Point) (hA : A ≠ []) (hB : B ≠ []) :
    (polygonCollisionMTV A B = MTVResult.noCollision ↔
      ∃ ax ∈ getAxes A ++ getAxes B, overlapOn A B ax ≤ 0) ∧
    (∀ m : Point, polygonCollisionMTV A B = MTVResult.collision m →
      ∃ ax ∈ getAxes A ++ getAxes B,
        0 < overlapOn A B ax ∧
        (∀ ax2 ∈ getAxes A ++ getAxes B, overlapOn A B ax ≤ overlapOn A B ax2) ∧
        m = Point.mk ((orientAxis (centerDelta A B) ax).x * overlapOn A B ax)
                     ((orientAxis (centerDelta A B) ax).y * overlapOn A B ax) ∧
        0 ≤ m.x * (centerDelta A B).x + m.y * (centerDelta A B).y) := by
  constructor
  · exact mtvGo_noCollision_iff A B (centerDelta A B) (getAxes A ++ getAxes B) none
  · intro m hm
    have hall : ∀ ax ∈ getAxes A ++ getAxes B, 0 < overlapOn A B ax := by
      by_contra hc
      push_neg at hc
      obtain ⟨ax, hmem, hle⟩ := hc
      have h0 : polygonCollisionMTV A B = MTVResult.noCollision :=
        (mtvGo_noCollision_iff A B (centerDelta A B) (getAxes A ++ getAxes B) none).mpr
          ⟨ax, hmem, hle⟩
      rw [hm] at h0
      exact MTVResult.noConfusion h0
    have hne : getAxes A ++ getAxes B ≠ [] := by
      intro hc
      exact getAxes_ne_nil A hA (List.append_eq_nil.mp hc).1
    obtain ⟨ax0, rest, hcons⟩ := List.exists_cons_of_ne_nil hne
    have hfold := mtvGo_allpos A B (centerDelta A B) (getAxes A ++ getAxes B) none hall
    have hm1 : mtvGo A B (centerDelta A B) (getAxes A ++ getAxes B) none =
        MTVResult.collision m := hm
    rw [hfold] at hm1
    have hmval : m = mtvFinal (List.foldl (mtvStep A B (centerDelta A B)) none
        (getAxes A ++ getAxes B)) := by
      injection hm1 with h
      exact h.symm
    rw [hcons] at hmval hall ⊢
    have hstep0 : List.foldl (mtvStep A B (centerDelta A B)) none (ax0 :: rest) =
        List.foldl (mtvStep A B (centerDelta A B))
          (some (overlapOn A B ax0, orientAxis (centerDelta A B) ax0)) rest := by
      rw [List.foldl_cons]
      rfl
    obtain ⟨q, hq, hsrc, hle, hrest⟩ :=
      foldl_mtvStep_some A B (centerDelta A B) rest (overlapOn A B ax0)
        (orientAxis (centerDelta A B) ax0)
    have hq2 : ∃ axm ∈ ax0 :: rest,
        q = (overlapOn A B axm, orientAxis (centerDelta A B) axm) := by
      rcases hsrc with h6 | ⟨axm, hmm, hh⟩
      · exact ⟨ax0, by simp, h6⟩
      · exact ⟨axm, by simp [hmm], hh⟩
    obtain ⟨axm, hmemm, hqeq⟩ := hq2
    have hmeq : m = Point.mk ((orientAxis (centerDelta A B) axm).x * overlapOn A B axm)
        ((orientAxis (centerDelta A B) axm).y * overlapOn A B axm) := by
      rw [hmval, hstep0, hq, hqeq]
      rfl
    refine ⟨axm, hmemm, hall axm hmemm, ?_, hmeq, ?_⟩
    · intro ax2 hm2
      rcases List.mem_cons.mp hm2 with rfl | hm3
      · have h7 := hle
        rw [hqeq] at h7
        simpa using h7
      · have h7 := hrest ax2 hm3
        rw [hqeq] at h7
        simpa using h7
    · have hdot := orient_dot_nonneg (centerDelta A B) axm
      have hpos := hall axm hmemm
      rw [hmeq]
      simp only []
      nlinarith [mul_nonneg (le_of_lt hpos) hdot]

/-- Witness for C1: two separated unit squares; the axis `(1, 0)` of the
first square has overlap `-9`, so the characterization yields no collision. -/
theorem mtv_axis_union_spec_witness :
    polygonCollisionMTV [Point.mk 0 0, Point.mk 1 0, Point.mk 1 1, Point.mk 0 1]
      [Point.mk 10 0, Point.mk 11 0, Point.mk 11 1, Point.mk 10 1] =
      MTVResult.noCollision := by
  apply (mtv_axis_union_spec
    [Point.mk 0 0, Point.mk 1 0, Point.mk 1 1, Point.mk 0 1]
    [Point.mk 10 0, Point.mk 11 0, Point.mk 11 1, Point.mk 10 1]
    (by simp) (by simp)).1.mpr
  refine ⟨Point.mk 1 0, ?_, ?_⟩
  · apply List.mem_append_left
    rw [getAxes_unitSq01]
    simp
  · norm_num [overlapOn, projectPointsOnAxis, min_def, max_def]

/-- C10: the two collision predicates agree except at exact touching: a
strictly negative-overlap axis makes both report no collision; all-positive
overlaps make both report collision; but a smallest overlap of exactly `0`
makes `polygonCollision` return `true` while `polygonCollisionMTV` returns
no collision. -/
theorem collision_predicates_agreement (A B : List Point) (hA : A ≠ []) (hB : B ≠ []) :
    ((∃ ax ∈ getAxes A ++ getAxes B, overlapOn A B ax < 0) →
      polygonCollision A B = false ∧ polygonCollisionMTV A B = MTVResult.noCollision) ∧
    ((∀ ax ∈ getAxes A ++ getAxes B, 0 < overlapOn A B ax) →
      polygonCollision A B = true ∧ ∃ m, polygonCollisionMTV A B = MTVResult.collision m) ∧
    ((∀ ax ∈ getAxes A ++ getAxes B, 0 ≤ overlapOn A B ax) →
      (∃ ax ∈ getAxes A ++ getAxes B, overlapOn A B ax = 0) →
      polygonCollision A B = true ∧ polygonCollisionMTV A B = MTVResult.noCollision) := by
  refine ⟨?_, ?_, ?_⟩
  · rintro ⟨ax, hmem, hneg⟩
    constructor
    · exact (sepGo_false_iff A B (getAxes A ++ getAxes B)).mpr
        ⟨ax, hmem, (sepCond_iff A B ax hA hB).mpr hneg⟩
    · exact (mtvGo_noCollision_iff A B (centerDelta A B) (getAxes A ++ getAxes B) none).mpr
        ⟨ax, hmem, le_of_lt hneg⟩
  · intro hall
    constructor
    · have hnf : polygonCollision A B ≠ false := by
        intro hf
        obtain ⟨ax, hmem, hc⟩ := (sepGo_false_iff A B (getAxes A ++ getAxes B)).mp hf
        have hneg := (sepCond_iff A B ax hA hB).mp hc
        exact absurd (hall ax hmem) (by linarith)
      exact eq_true_of_ne_false hnf
    · exact ⟨_, mtvGo_allpos A B (centerDelta A B) (getAxes A ++ getAxes B) none hall⟩
  · intro hge hex
    constructor
    · have hnf : polygonCollision A B ≠ false := by
        intro hf
        obtain ⟨ax, hmem, hc⟩ := (sepGo_false_iff A B (getAxes A ++ getAxes B)).mp hf
        have hneg := (sepCond_iff A B ax hA hB).mp hc
        exact absurd (hge ax hmem) (by linarith)
      exact eq_true_of_ne_false hnf
    · obtain ⟨ax, hmem, h0⟩ := hex
      exact (mtvGo_noCollision_iff A B (centerDelta A B) (getAxes A ++ getAxes B) none).mpr
        ⟨ax, hmem, le_of_eq h0⟩

/-- Witness for C10: the unit square against itself has strictly positive
overlap on every axis of the union, so both predicates report collision. -/
theorem collision_predicates_agreement_witness :
    polygonCollision [Point.mk 0 0, Point.mk 1 0, Point.mk 1 1, Point.mk 0 1]
        [Point.mk 0 0, Point.mk 1 0, Point.mk 1 1, Point.mk 0 1] = true ∧
      ∃ m, polygonCollisionMTV [Point.mk 0 0, Point.mk 1 0, Point.mk 1 1, Point.mk 0 1]
        [Point.mk 0 0, Point.mk 1 0, Point.mk 1 1, Point.mk 0 1] =
        MTVResult.collision m := by
  apply (collision_predicates_agreement
    [Point.mk 0 0, Point.mk 1 0, Point.mk 1 1, Point.mk 0 1]
    [Point.mk 0 0, Point.mk 1 0, Point.mk 1 1, Point.mk 0 1]
    (by simp) (by simp)).2.1
  intro ax hax
  rw [getAxes_unitSq01] at hax
  simp only [List.mem_append, List.mem_cons, List.not_mem_nil, or_false] at hax
  rcases hax with (rfl | rfl | rfl | rfl) | (rfl | rfl | rfl | rfl) <;>
    norm_num [overlapOn, projectPointsOnAxis, min_def, max_def]

/-! ### The zero-inset chamfered polygon -/

lemma chamferZeroInset_eq (cx cy w h a : ℝ) :
    ∃ r0 r1 r2 r3 : Point,
      getRectangleCorners cx cy w h a = [r0, r1, r2, r3] ∧
      getChamferedRectPolygon cx cy w h a 0 0 = [r0, r1, r1, r2, r2, r3, r3, r0] := by
  have hix : min (max (0:ℝ) 0) (max 0 (w / 2 - 1)) = 0 := by
    rw [max_self]
    exact min_eq_left (le_max_left 0 _)
  have hiy : min (max (0:ℝ) 0) (max 0 (h / 2 - 1)) = 0 := by
    rw [max_self]
    exact min_eq_left (le_max_left 0 _)
  refine ⟨_, _, _, _, rfl, ?_⟩
  simp only [getChamferedRectPolygon, getRectangleCorners, hix, hiy, List.map]
  norm_num [Point.ext_iff]

lemma foldl_min_replicate_zero (n : ℕ) :
    List.foldl min (0:ℝ) (List.replicate n 0) = 0 := by
  induction n with
  | zero => rfl
  | succ k ih =>
    rw [List.replicate_succ, List.foldl_cons, min_self]
    exact ih

lemma foldl_max_replicate_zero (n : ℕ) :
    List.foldl max (0:ℝ) (List.replicate n 0) = 0 := by
  induction n with
  | zero => rfl
  | succ k ih =>
    rw [List.replicate_succ, List.foldl_cons, max_self]
    exact ih

lemma proj_zero_axis (p : Point) (ps : List Point) :
    projectPointsOnAxis (p :: ps) (Point.mk 0 0) = (0, 0) := by
  have hmap : ps.map (fun q => q.x * (Point.mk 0 0).x + q.y * (Point.mk 0 0).y) =
      List.replicate ps.length 0 := by
    rw [show (fun q : Point => q.x * (Point.mk 0 0).x + q.y * (Point.mk 0 0).y) =
        (fun _ : Point => (0:ℝ)) from by funext q; simp]
    exact List.map_const' ps 0
  simp only [projectPointsOnAxis, List.map, hmap]
  norm_num [foldl_min_replicate_zero, foldl_max_replicate_zero]

lemma axes_dup (r0 r1 r2 r3 : Point) :
    getAxes [r0, r1, r1, r2, r2, r3, r3, r0] =
      [axisForEdge r0 r1, Point.mk 0 0, axisForEdge r1 r2, Point.mk 0 0,
       axisForEdge r2 r3, Point.mk 0 0, axisForEdge r3 r0, Point.mk 0 0] := by
  simp [getAxes, cyc, axisForEdge_self]

lemma axes_rect4 (r0 r1 r2 r3 : Point) :
    getAxes [r0, r1, r2, r3] =
      [axisForEdge r0 r1, axisForEdge r1 r2, axisForEdge r2 r3, axisForEdge r3 r0] := by
  simp [getAxes, cyc]

lemma chamferZero_MTV_noCollision (x1 y1 w1 h1 a1 x2 y2 w2 h2 a2 : ℝ) :
    polygonCollisionMTV (getChamferedRectPolygon x1 y1 w1 h1 a1 0 0)
      (getChamferedRectPolygon x2 y2 w2 h2 a2 0 0) = MTVResult.noCollision := by
  obtain ⟨r0, r1, r2, r3, hr, hc⟩ := chamferZeroInset_eq x1 y1 w1 h1 a1
  obtain ⟨s0, s1, s2, s3, hs, hc2⟩ := chamferZeroInset_eq x2 y2 w2 h2 a2
  have hmem : Point.mk 0 0 ∈ getAxes (getChamferedRectPolygon x1 y1 w1 h1 a1 0 0) ++
      getAxes (getChamferedRectPolygon x2 y2 w2 h2 a2 0 0) := by
    apply List.mem_append_left
    rw [hc, axes_dup]
    simp
  have hov : overlapOn (getChamferedRectPolygon x1 y1 w1 h1 a1 0 0)
      (getChamferedRectPolygon x2 y2 w2 h2 a2 0 0) (Point.mk 0 0) ≤ 0 := by
    rw [hc, hc2]
    simp [overlapOn, proj_zero_axis]
  exact (mtvGo_noCollision_iff _ _ _ _ none).mpr ⟨Point.mk 0 0, hmem, hov⟩

lemma min_absorb_pair (X y : ℝ) : min (min X y) y = min X y := by
  rw [min_assoc, min_self]

lemma max_absorb_pair (X y : ℝ) : max (max X y) y = max X y := by
  rw [max_assoc, max_self]

lemma proj_dup (r0 r1 r2 r3 ax : Point) :
    projectPointsOnAxis [r0, r1, r1, r2, r2, r3, r3, r0] ax =
      projectPointsOnAxis [r0, r1, r2, r3] ax := by
  simp only [projectPointsOnAxis, List.map, List.foldl_cons, List.foldl_nil, Prod.mk.injEq]
  constructor
  · rw [min_absorb_pair, min_absorb_pair, min_absorb_pair]
    exact min_eq_left (le_trans (min_le_left _ _)
      (le_trans (min_le_left _ _) (min_le_left _ _)))
  · rw [max_absorb_pair, max_absorb_pair, max_absorb_pair]
    exact max_eq_left (le_trans (le_max_left _ _)
      (le_trans (le_max_left _ _) (le_max_left _ _)))

lemma sepGo_cons_congr (A B : List Point) (x : Point) (l1 l2 : List Point)
    (h : sepGo A B l1 = sepGo A B l2) : sepGo A B (x :: l1) = sepGo A B (x :: l2) := by
  simp only [sepGo, h]

lemma sepGo_zeroaxis (A B : List Point) (p q : Point) (ps qs : List Point)
    (hA : A = p :: ps) (hB : B = q :: qs) (rest : List Point) :
    sepGo A B (Point.mk 0 0 :: rest) = sepGo A B rest := by
  have hpA : projectPointsOnAxis A (Point.mk 0 0) = (0, 0) := by
    rw [hA]
    exact proj_zero_axis p ps
  have hpB : projectPointsOnAxis B (Point.mk 0 0) = (0, 0) := by
    rw [hB]
    exact proj_zero_axis q qs
  simp only [sepGo, hpA, hpB]
  norm_num

lemma sepGo_congr_proj (A B A2 B2 : List Point)
    (hA : ∀ ax, projectPointsOnAxis A ax = projectPointsOnAxis A2 ax)
    (hB : ∀ ax, projectPointsOnAxis B ax = projectPointsOnAxis B2 ax) :
    ∀ axs, sepGo A B axs = sepGo A2 B2 axs := by
  intro axs
  induction axs with
  | nil => rfl
  | cons ax rest ih => simp only [sepGo, hA ax, hB ax, ih]

lemma polygonCollision_dup_eq (r0 r1 r2 r3 s0 s1 s2 s3 : Point) :
    polygonCollision [r0, r1, r1, r2, r2, r3, r3, r0] [s0, s1, s1, s2, s2, s3, s3, s0] =
      polygonCollision [r0, r1, r2, r3] [s0, s1, s2, s3] := by
  unfold polygonCollision
  rw [axes_dup r0 r1 r2 r3, axes_dup s0 s1 s2 s3, axes_rect4 r0 r1 r2 r3,
    axes_rect4 s0 s1 s2 s3]
  rw [sepGo_congr_proj _ _ [r0, r1, r2, r3] [s0, s1, s2, s3]
    (proj_dup r0 r1 r2 r3) (proj_dup s0 s1 s2 s3)]
  simp only [List.cons_append, List.nil_append]
  apply sepGo_cons_congr
  rw [sepGo_zeroaxis _ _ r0 s0 _ _ rfl rfl]
  apply sepGo_cons_congr
  rw [sepGo_zeroaxis _ _ r0 s0 _ _ rfl rfl]
  apply sepGo_cons_congr
  rw [sepGo_zeroaxis _ _ r0 s0 _ _ rfl rfl]
  apply sepGo_cons_congr
  rw [sepGo_zeroaxis _ _ r0 s0 _ _ rfl rfl]
  apply sepGo_cons_congr
  rw [sepGo_zeroaxis _ _ r0 s0 _ _ rfl rfl]
  apply sepGo_cons_congr
  rw [sepGo_zeroaxis _ _ r0 s0 _ _ rfl rfl]
  apply sepGo_cons_congr
  rw [sepGo_zeroaxis _ _ r0 s0 _ _ rfl rfl]
  apply sepGo_cons_congr
  rw [sepGo_zeroaxis _ _ r0 s0 _ _ rfl rfl]

/-- Counterexample for C5: two coincident 2-by-2 axis-aligned rectangles.
`rectangleCollision` reports a collision, but `polygonCollisionMTV` on their
zero-inset chamfered polygons reports no collision, so the claimed
equivalence fails. -/
theorem chamfer_zero_inset_counterexample :
    polygonCollisionMTV (getChamferedRectPolygon 0 0 2 2 0 0 0)
        (getChamferedRectPolygon 0 0 2 2 0 0 0) = MTVResult.noCollision ∧
      rectangleCollision 0 0 2 2 0 0 0 2 2 0 = true := by
  constructor
  · exact chamferZero_MTV_noCollision 0 0 2 2 0 0 0 2 2 0
  · have h4 : Real.sqrt 4 = 2 := sqrt_eval 4 2 (by norm_num) (by norm_num)
    norm_num [rectangleCollision, getRectangleCorners, getAxes, cyc, axisForEdge,
      sepGo, projectPointsOnAxis, Real.cos_zero, Real.sin_zero, h4, min_def, max_def]

/-- C5 (amended): the zero-inset chamfered polygon is exactly the rectangle's
corner polygon with every corner duplicated into a collinear pair.  On two
such polygons the boolean `polygonCollision` test agrees exactly with
`rectangleCollision`, but `polygonCollisionMTV` always reports no collision
because each duplicated corner yields a zero-length edge whose fallback axis
`(0, 0)` produces projection overlap `0`. -/
theorem chamfer_zero_inset_amended :
    (∀ cx cy w h a : ℝ, ∃ r0 r1 r2 r3 : Point,
      getRectangleCorners cx cy w h a = [r0, r1, r2, r3] ∧
      getChamferedRectPolygon cx cy w h a 0 0 = [r0, r1, r1, r2, r2, r3, r3, r0]) ∧
    (∀ x1 y1 w1 h1 a1 x2 y2 w2 h2 a2 : ℝ,
      polygonCollisionMTV (getChamferedRectPolygon x1 y1 w1 h1 a1 0 0)
        (getChamferedRectPolygon x2 y2 w2 h2 a2 0 0) = MTVResult.noCollision) ∧
    (∀ x1 y1 w1 h1 a1 x2 y2 w2 h2 a2 : ℝ,
      polygonCollision (getChamferedRectPolygon x1 y1 w1 h1 a1 0 0)
        (getChamferedRectPolygon x2 y2 w2 h2 a2 0 0) =
      rectangleCollision x1 y1 w1 h1 a1 x2 y2 w2 h2 a2) := by
  refine ⟨chamferZeroInset_eq, chamferZero_MTV_noCollision, ?_⟩
  intro x1 y1 w1 h1 a1 x2 y2 w2 h2 a2
  obtain ⟨r0, r1, r2, r3, hr, hc⟩ := chamferZeroInset_eq x1 y1 w1 h1 a1
  obtain ⟨s0, s1, s2, s3, hs, hc2⟩ := chamferZeroInset_eq x2 y2 w2 h2 a2
  rw [hc, hc2, polygonCollision_dup_eq]
  unfold rectangleCollision
  rw [hr, hs]
  rfl

/-- Witness for C5 (amended), at concrete rectangles: the 2-by-2 rectangle
at the origin degenerates to its duplicated-corner polygon, and against the
2-by-2 rectangle at (3, 0) the mtv test reports no collision while the
boolean polygon test agrees with `rectangleCollision`. -/
theorem chamfer_zero_inset_amended_witness :
    (∃ r0 r1 r2 r3 : Point,
      getRectangleCorners 0 0 2 2 0 = [r0, r1, r2, r3] ∧
      getChamferedRectPolygon 0 0 2 2 0 0 0 = [r0, r1, r1, r2, r2, r3, r3, r0]) ∧
    polygonCollisionMTV (getChamferedRectPolygon 0 0 2 2 0 0 0)
      (getChamferedRectPolygon 3 0 2 2 0 0 0) = MTVResult.noCollision ∧
    polygonCollision (getChamferedRectPolygon 0 0 2 2 0 0 0)
      (getChamferedRectPolygon 3 0 2 2 0 0 0) =
      rectangleCollision 0 0 2 2 0 3 0 2 2 0 :=
  ⟨chamfer_zero_inset_amended.1 0 0 2 2 0,
   chamfer_zero_inset_amended.2.1 0 0 2 2 0 3 0 2 2 0,
   chamfer_zero_inset_amended.2.2 0 0 2 2 0 3 0 2 2 0⟩

/-! ### Projection lemmas for the level manager -/

lemma recompute_gap (s : GameState) :
    (recomputeParkingLayout s).gapBetweenCars = s.gapBetweenCars := by
  unfold recomputeParkingLayout
  rcases h : s.parkedCars with _ | ⟨c0, _ | ⟨c1, rest⟩⟩ <;> simp [h]

lemma recompute_minGap (s : GameState) :
    (recomputeParkingLayout s).minGap = s.minGap := by
  unfold recomputeParkingLayout
  rcases h : s.parkedCars with _ | ⟨c0, _ | ⟨c1, rest⟩⟩ <;> simp [h]

lemma recompute_winCount (s : GameState) :
    (recomputeParkingLayout s).winCount = s.winCount := by
  unfold recomputeParkingLayout
  rcases h : s.parkedCars with _ | ⟨c0, _ | ⟨c1, rest⟩⟩ <;> simp [h]

lemma recompute_car (s : GameState) :
    (recomputeParkingLayout s).car = s.car := by
  unfold recomputeParkingLayout
  rcases h : s.parkedCars with _ | ⟨c0, _ | ⟨c1, rest⟩⟩ <;> simp [h]

/-! ### C3: turn direction under reversing -/

lemma angleAfterTurn_pos_steer (angle speed steerAngle wheelbase dt : ℝ)
    (hs : |speed| > 0.05) (hst : 0.01 < steerAngle) :
    angleAfterTurn angle speed steerAngle wheelbase dt =
      angle + speed / (wheelbase / Real.tan steerAngle) * dt := by
  have hpos : (0:ℝ) < steerAngle := lt_trans (by norm_num) hst
  have habs : |steerAngle| = steerAngle := abs_of_pos hpos
  have hcond : |speed| > 0.05 ∧ |steerAngle| > 0.01 := by
    constructor
    · exact hs
    · rw [habs]
      exact hst
  unfold angleAfterTurn
  rw [if_pos hcond, habs, if_pos hpos]

/-- C3 (amended): when the heading update runs with a positive steer angle,
the heading increases while moving forward and decreases in reverse: the
turn direction inverts with the sign of the speed. -/
theorem turn_direction_inverts (angle speed steerAngle wheelbase dt : ℝ)
    (h1 : 0.01 < steerAngle) (h2 : steerAngle < Real.pi / 2)
    (hwb : 0 < wheelbase) (hdt : 0 < dt) :
    (0.05 < speed → angle < angleAfterTurn angle speed steerAngle wheelbase dt) ∧
    (speed < -0.05 → angleAfterTurn angle speed steerAngle wheelbase dt < angle) := by
  have htan : 0 < Real.tan steerAngle :=
    Real.tan_pos_of_pos_of_lt_pi_div_two (lt_trans (by norm_num) h1) h2
  have hr : 0 < wheelbase / Real.tan steerAngle := div_pos hwb htan
  constructor
  · intro hsp
    have habs : |speed| > 0.05 := by
      rw [abs_of_pos (lt_trans (by norm_num) hsp)]
      exact hsp
    rw [angleAfterTurn_pos_steer angle speed steerAngle wheelbase dt habs h1]
    have hpos : 0 < speed / (wheelbase / Real.tan steerAngle) * dt :=
      mul_pos (div_pos (lt_trans (by norm_num) hsp) hr) hdt
    linarith
  · intro hsp
    have habs : |speed| > 0.05 := by
      rw [abs_of_neg (show speed < 0 by linarith)]
      linarith
    rw [angleAfterTurn_pos_steer angle speed steerAngle wheelbase dt habs h1]
    have hneg : speed / (wheelbase / Real.tan steerAngle) * dt < 0 :=
      mul_neg_of_neg_of_pos (div_neg_of_neg_of_pos (by linarith) hr) hdt
    linarith

/-- Witness for C3 (amended): at steer angle 1/10, wheelbase 70, dt 1/100
and forward speed 100 the heading strictly increases. -/
theorem turn_direction_inverts_witness :
    0 < angleAfterTurn 0 100 (1/10) 70 (1/100) := by
  have h := turn_direction_inverts 0 100 (1/10) 70 (1/100) (by norm_num)
    (by have := Real.pi_gt_three; linarith) (by norm_num) (by norm_num)
  exact h.1 (by norm_num)

/-- Counterexample for C3: at steer angle 1/10 the heading change is
strictly positive at speed 100 and strictly negative at speed -100, so a
positive steer angle does not turn the heading the same way in forward and
reverse. -/
theorem turn_direction_counterexample :
    0 < angleAfterTurn 0 100 (1/10) 70 (1/100) ∧
      angleAfterTurn 0 (-100) (1/10) 70 (1/100) < 0 := by
  have h2 : (1:ℝ)/10 < Real.pi / 2 := by
    have := Real.pi_gt_three
    linarith
  have htan : 0 < Real.tan ((1:ℝ)/10) :=
    Real.tan_pos_of_pos_of_lt_pi_div_two (by norm_num) h2
  have hr : 0 < 70 / Real.tan ((1:ℝ)/10) := div_pos (by norm_num) htan
  constructor
  · rw [angleAfterTurn_pos_steer 0 100 (1/10) 70 (1/100)
      (by rw [abs_of_pos (show (0:ℝ) < 100 by norm_num)]; norm_num) (by norm_num)]
    have hpos : 0 < (100:ℝ) / (70 / Real.tan (1/10)) * (1/100) :=
      mul_pos (div_pos (by norm_num) hr) (by norm_num)
    linarith
  · rw [angleAfterTurn_pos_steer 0 (-100) (1/10) 70 (1/100)
      (by rw [abs_of_neg (show (-100:ℝ) < 0 by norm_num)]; norm_num) (by norm_num)]
    have hneg : (-100:ℝ) / (70 / Real.tan (1/10)) * (1/100) < 0 :=
      mul_neg_of_neg_of_pos (div_neg_of_neg_of_pos (by norm_num) hr) (by norm_num)
    linarith

/-! ### C4: the gap floor -/

lemma setInitial_gap (s : GameState) :
    (setInitialCarPosition s).gapBetweenCars = s.gapBetweenCars := rfl

lemma setInitial_minGap (s : GameState) :
    (setInitialCarPosition s).minGap = s.minGap := rfl

lemma setInitial_winCount (s : GameState) :
    (setInitialCarPosition s).winCount = s.winCount := rfl

lemma winLatchStep_shape (s : GameState) (now : ℝ) :
    ∃ b r, winLatchStep s now = { s with winLatched := b, winResetAtMs := r } := by
  unfold winLatchStep
  by_cases hw : winCondition s
  · rw [if_pos hw]
    cases hl : s.winLatched
    · exact ⟨true, some (now + s.winResetDelayMs), by norm_num⟩
    · exact ⟨s.winLatched, s.winResetAtMs, by norm_num⟩
  · rw [if_neg hw]
    rcases hr : s.winResetAtMs with _ | t
    · exact ⟨false, none, rfl⟩
    · exact ⟨s.winLatched, s.winResetAtMs, rfl⟩

lemma winTimerStep_none (s : GameState) (now : ℝ) (hr : s.winResetAtMs = none) :
    winTimerStep s now = s := by
  unfold winTimerStep
  rw [hr]

lemma winTimerStep_wait (s : GameState) (now t : ℝ) (hr : s.winResetAtMs = some t)
    (hn : ¬ t ≤ now) : winTimerStep s now = s := by
  unfold winTimerStep
  rw [hr]
  exact if_neg hn

lemma winTimerStep_fire (s : GameState) (now t : ℝ) (hr : s.winResetAtMs = some t)
    (hn : t ≤ now) :
    winTimerStep s now =
      { setInitialCarPosition (recomputeParkingLayout
          { s with winCount := s.winCount + 1,
                   gapBetweenCars := levelGapStep s.minGap s.gapStep s.gapBetweenCars })
        with winResetAtMs := none, winLatched := false } := by
  unfold winTimerStep
  rw [hr]
  exact if_pos hn

/-- C4: `checkParking` never lets the gap drop below `minGap`; a fired level
transition sets the gap to `max(minGap, gap - gapStep)`; and with the game's
constants (start 200, step 20, floor 60) the gap is 60 after 10 wins and an
11th win leaves it at 60. -/
theorem gap_floor_spec :
    (∀ (s : GameState) (now : ℝ), s.minGap ≤ s.gapBetweenCars →
      s.minGap ≤ (checkParking s now).gapBetweenCars) ∧
    (∀ (s : GameState) (now t : ℝ), s.winLatched = true → s.winResetAtMs = some t →
      t ≤ now →
      (checkParking s now).gapBetweenCars =
        levelGapStep s.minGap s.gapStep s.gapBetweenCars) ∧
    (∀ n : ℕ, 60 ≤ gapAfterWins n) ∧
    gapAfterWins 10 = 60 ∧ gapAfterWins 11 = 60 := by
  have hsucc : ∀ n : ℕ, gapAfterWins (n + 1) = max 60 (gapAfterWins n - 20) := by
    intro n
    unfold gapAfterWins
    rw [Function.iterate_succ_apply']
    rfl
  have g1 : gapAfterWins 1 = 180 := by
    rw [show (1:ℕ) = 0 + 1 from rfl, hsucc]
    norm_num [gapAfterWins, max_def]
  have g2 : gapAfterWins 2 = 160 := by
    rw [show (2:ℕ) = 1 + 1 from rfl, hsucc, g1]
    norm_num [max_def]
  have g3 : gapAfterWins 3 = 140 := by
    rw [show (3:ℕ) = 2 + 1 from rfl, hsucc, g2]
    norm_num [max_def]
  have g4 : gapAfterWins 4 = 120 := by
    rw [show (4:ℕ) = 3 + 1 from rfl, hsucc, g3]
    norm_num [max_def]
  have g5 : gapAfterWins 5 = 100 := by
    rw [show (5:ℕ) = 4 + 1 from rfl, hsucc, g4]
    norm_num [max_def]
  have g6 : gapAfterWins 6 = 80 := by
    rw [show (6:ℕ) = 5 + 1 from rfl, hsucc, g5]
    norm_num [max_def]
  have g7 : gapAfterWins 7 = 60 := by
    rw [show (7:ℕ) = 6 + 1 from rfl, hsucc, g6]
    norm_num [max_def]
  have g8 : gapAfterWins 8 = 60 := by
    rw [show (8:ℕ) = 7 + 1 from rfl, hsucc, g7]
    norm_num [max_def]
  have g9 : gapAfterWins 9 = 60 := by
    rw [show (9:ℕ) = 8 + 1 from rfl, hsucc, g8]
    norm_num [max_def]
  have g10 : gapAfterWins 10 = 60 := by
    rw [show (10:ℕ) = 9 + 1 from rfl, hsucc, g9]
    norm_num [max_def]
  have g11 : gapAfterWins 11 = 60 := by
    rw [show (11:ℕ) = 10 + 1 from rfl, hsucc, g10]
    norm_num [max_def]
  refine ⟨?_, ?_, ?_, g10, g11⟩
  · intro s now h
    obtain ⟨b, r, hshape⟩ := winLatchStep_shape s now
    unfold checkParking
    rw [hshape]
    rcases r with _ | t
    · rw [winTimerStep_none _ _ rfl]
      exact h
    · by_cases hn : t ≤ now
      · rw [winTimerStep_fire _ _ t rfl hn]
        show s.minGap ≤ (setInitialCarPosition (recomputeParkingLayout _)).gapBetweenCars
        rw [setInitial_gap, recompute_gap]
        exact le_max_left _ _
      · rw [winTimerStep_wait _ _ t rfl hn]
        exact h
  · intro s now t hl hp hn
    have hshape : winLatchStep s now = s := by
      unfold winLatchStep
      by_cases hw : winCondition s
      · rw [if_pos hw, hl, if_pos rfl]
      · rw [if_neg hw, hp]
    unfold checkParking
    rw [hshape, winTimerStep_fire _ _ t hp hn]
    show (setInitialCarPosition (recomputeParkingLayout _)).gapBetweenCars = _
    rw [setInitial_gap, recompute_gap]
  · intro n
    induction n with
    | zero => norm_num [gapAfterWins]
    | succ k ih =>
      rw [hsucc]
      exact le_max_left _ _

/-- Witness for C4: the initial game state has `minGap = 60` and gap 200,
and one `checkParking` step keeps the gap at or above `minGap`. -/
theorem gap_floor_spec_witness :
    (initState 800 600).minGap ≤ (checkParking (initState 800 600) 0).gapBetweenCars := by
  apply gap_floor_spec.1
  norm_num [initState, recomputeParkingLayout, setInitialCarPosition]

/-! ### C6: reversed heading does not win -/

lemma jsRem_pi : jsRem Real.pi (Real.pi * 2) = Real.pi := by
  unfold jsRem jsTrunc
  have hdiv : Real.pi / (Real.pi * 2) = 1 / 2 := by
    rw [div_eq_iff (by positivity)]
    ring
  have hfl : ⌊(1:ℝ) / 2⌋ = 0 := by
    apply Int.floor_eq_zero_iff.mpr
    rw [Set.mem_Ico]
    norm_num
  rw [hdiv, if_pos (by norm_num), hfl]
  push_cast
  ring

lemma not_wellAligned_pi : ¬ wellAligned Real.pi := by
  unfold wellAligned
  rw [jsRem_pi]
  push_neg
  have hpi3 := Real.pi_gt_three
  constructor
  · rw [abs_of_pos Real.pi_pos]
    linarith
  · rw [show Real.pi - Real.pi * 2 = -Real.pi by ring, abs_neg, abs_of_pos Real.pi_pos]
    linarith

lemma checkParking_winLatched_false (s : GameState) (now : ℝ)
    (hnw : ¬ winCondition s) (hl : s.winLatched = false) :
    (checkParking s now).winLatched = false := by
  unfold checkParking
  have hshape : winLatchStep s now = s ∨
      winLatchStep s now = { s with winLatched := false } := by
    unfold winLatchStep
    rw [if_neg hnw]
    rcases hr : s.winResetAtMs with _ | t
    · exact Or.inr rfl
    · exact Or.inl rfl
  rcases hshape with h | h <;> rw [h] <;> rcases hr : s.winResetAtMs with _ | t
  · rw [winTimerStep_none _ _ hr]
    exact hl
  · by_cases hn : t ≤ now
    · rw [winTimerStep_fire _ _ t hr hn]
    · rw [winTimerStep_wait _ _ t hr hn]
      exact hl
  · rw [winTimerStep_none _ _ rfl]
  · by_cases hn : t ≤ now
    · rw [winTimerStep_fire _ _ t rfl hn]
    · rw [winTimerStep_wait _ _ t rfl hn]

/-- C6: if the car center lies inside the target and the speed is below 0.1
but the heading equals pi, the win condition is false (pi is not within the
0.2 tolerance of 0 under the mod-2-pi comparison) and `checkParking` sets no
win latch. -/
theorem reversed_heading_no_win (s : GameState) (now : ℝ)
    (hin : inSpace s) (hv : |s.car.speed| < 0.1) (ha : s.car.angle = Real.pi) :
    ¬ winCondition s ∧
      (s.winLatched = false → (checkParking s now).winLatched = false) := by
  have hnw : ¬ winCondition s := by
    intro hc
    exact not_wellAligned_pi (ha ▸ hc.2.1)
  exact ⟨hnw, fun hl => checkParking_winLatched_false s now hnw hl⟩

/-- Witness for C6: the concrete state `c6State` (car centered at
(400, 420) in the 200-wide space, speed 0, heading pi) does not win and
stays unlatched. -/
theorem reversed_heading_no_win_witness :
    ¬ winCondition c6State ∧
      (c6State.winLatched = false → (checkParking c6State 0).winLatched = false) := by
  apply reversed_heading_no_win c6State 0
  · unfold inSpace
    norm_num [c6State, initState, setInitialCarPosition, recomputeParkingLayout]
  · norm_num [c6State, initState, setInitialCarPosition, recomputeParkingLayout]
  · rfl

/-! ### C7: the win linger schedule -/

/-- C7: while a pending reset is scheduled and not yet due, `checkParking`
keeps both the schedule and the latch, whether or not the win condition
still holds (leaving the space cancels nothing and no second win can latch);
once the timestamp is due, the level transition runs and clears both. -/
theorem win_linger_schedule (s : GameState) (now t : ℝ)
    (hl : s.winLatched = true) (hp : s.winResetAtMs = some t) :
    (now < t →
      (checkParking s now).winResetAtMs = some t ∧
      (checkParking s now).winLatched = true ∧
      (checkParking s now).winCount = s.winCount) ∧
    (t ≤ now →
      (checkParking s now).winCount = s.winCount + 1 ∧
      (checkParking s now).winResetAtMs = none ∧
      (checkParking s now).winLatched = false) := by
  have hshape : winLatchStep s now = s := by
    unfold winLatchStep
    by_cases hw : winCondition s
    · rw [if_pos hw, hl, if_pos rfl]
    · rw [if_neg hw, hp]
  constructor
  · intro hn
    have hn2 : ¬ t ≤ now := not_le.mpr hn
    unfold checkParking
    rw [hshape, winTimerStep_wait _ _ t hp hn2]
    exact ⟨hp, hl, rfl⟩
  · intro hn
    unfold checkParking
    rw [hshape, winTimerStep_fire _ _ t hp hn]
    refine ⟨?_, rfl, rfl⟩
    show (setInitialCarPosition (recomputeParkingLayout _)).winCount = s.winCount + 1
    rw [setInitial_winCount, recompute_winCount]

/-- Witness for C7: with a reset pending at time 1000 and the clock at 0,
one `checkParking` step keeps the schedule, the latch, and the win count. -/
theorem win_linger_schedule_witness :
    (checkParking { initState 800 600 with
        winLatched := true, winResetAtMs := some 1000 } 0).winResetAtMs = some 1000 ∧
    (checkParking { initState 800 600 with
        winLatched := true, winResetAtMs := some 1000 } 0).winLatched = true ∧
    (checkParking { initState 800 600 with
        winLatched := true, winResetAtMs := some 1000 } 0).winCount =
      ({ initState 800 600 with
        winLatched := true, winResetAtMs := some 1000 } : GameState).winCount :=
  (win_linger_schedule _ 0 1000 rfl rfl).1 (by norm_num)

/-! ### C8: horizontal wrap and vertical clamp -/

lemma clampY_bound (H y : ℝ) (hH : 90 ≤ H) :
    45 ≤ clampY H y ∧ clampY H y ≤ H - 45 := by
  unfold clampY
  constructor
  · exact le_max_left _ _
  · apply max_le
    · linarith
    · exact min_le_left _ _

lemma wrapX_bound (W hw x : ℝ) (hW : 0 ≤ W) (hhw : 0 ≤ hw) :
    -hw ≤ wrapX W hw x ∧ wrapX W hw x ≤ W + hw := by
  unfold wrapX
  split_ifs with h1 h2 <;> constructor <;> linarith

lemma wrapXSeq_bound (W hw x : ℝ) (hW : 0 ≤ W) (hhw : 0 ≤ hw) :
    -hw ≤ wrapXSeq W hw x ∧ wrapXSeq W hw x ≤ W + hw := by
  unfold wrapXSeq
  dsimp only
  split_ifs <;> constructor <;> linarith

lemma applyBounce_cases (s : GameState) (dt now : ℝ) :
    applyBounce s dt now = s ∨
    ∃ x1 y1 : ℝ, applyBounce s dt now = { s with car := { s.car with
        x := wrapXSeq s.canvasWidth (s.car.width / 2) x1,
        y := clampY s.canvasHeight y1 } } := by
  unfold applyBounce
  by_cases h : now < s.collisionBounceUntilMs
  · rw [if_pos h]
    exact Or.inr ⟨_, _, rfl⟩
  · rw [if_neg h]
    exact Or.inl rfl

lemma updateCar_eq_physics (s : GameState) (dt now : ℝ)
    (hw : s.winResetAtMs = none) (hd : s.isDragging = false) :
    updateCar s dt now =
      (let s1 := movedState s dt
       let s2 : GameState :=
         match checkCollisions s1 with
         | some im =>
           { s1 with
             car := { s1.car with x := s.car.x, y := s.car.y, speed := 0, collided := true },
             lastCollision := some im.1,
             collisionMTV := some im.2,
             collisionFlashUntilMs := now + s.collisionFlashDurationMs,
             collisionBounceDir := bounceDirOf im.2,
             collisionBounceUntilMs := now + s.collisionBounceDurationMs }
         | none => { s1 with car := { s1.car with collided := false } }
       applyBounce { s2 with car := { s2.car with
         x := wrapX s2.canvasWidth (s2.car.width / 2) s2.car.x,
         y := clampY s2.canvasHeight s2.car.y } } dt now) := by
  unfold updateCar
  rw [hw, hd]
  rfl

/-- C8: on a physics tick (not frozen, not dragging), the final vertical
position is clamped into the 45 px inset margin and the final horizontal
position stays in the wrap range; the wrap map sends a position past the
left edge to the right edge offset by half the car width (and conversely)
and leaves in-range positions unchanged, while the vertical clamp always
lands inside the margin (no wrap). -/
theorem boundary_handling (s : GameState) (dt now : ℝ)
    (hw : s.winResetAtMs = none) (hd : s.isDragging = false)
    (hH : 90 ≤ s.canvasHeight) (hW : 0 ≤ s.canvasWidth) (hcw : 0 ≤ s.car.width) :
    (45 ≤ (updateCar s dt now).car.y ∧
      (updateCar s dt now).car.y ≤ s.canvasHeight - 45) ∧
    (-(s.car.width / 2) ≤ (updateCar s dt now).car.x ∧
      (updateCar s dt now).car.x ≤ s.canvasWidth + s.car.width / 2) ∧
    (∀ x, x < -(s.car.width / 2) →
      wrapX s.canvasWidth (s.car.width / 2) x = s.canvasWidth + s.car.width / 2) ∧
    (∀ x, s.canvasWidth + s.car.width / 2 < x →
      wrapX s.canvasWidth (s.car.width / 2) x = -(s.car.width / 2)) ∧
    (∀ x, -(s.car.width / 2) ≤ x → x ≤ s.canvasWidth + s.car.width / 2 →
      wrapX s.canvasWidth (s.car.width / 2) x = x) ∧
    (∀ y, 45 ≤ clampY s.canvasHeight y ∧ clampY s.canvasHeight y ≤ s.canvasHeight - 45) := by
  have hhw : 0 ≤ s.car.width / 2 := by linarith
  refine ⟨?_, ?_, ?_, ?_, ?_, fun y => clampY_bound _ y hH⟩
  · rw [updateCar_eq_physics s dt now hw hd]
    cases hc : checkCollisions (movedState s dt) with
    | some im =>
      simp only [hc]
      rcases applyBounce_cases _ dt now with heq | ⟨x1, y1, heq⟩ <;> rw [heq]
      · exact clampY_bound _ _ hH
      · exact clampY_bound _ _ hH
    | none =>
      simp only [hc]
      rcases applyBounce_cases _ dt now with heq | ⟨x1, y1, heq⟩ <;> rw [heq]
      · exact clampY_bound _ _ hH
      · exact clampY_bound _ _ hH
  · rw [updateCar_eq_physics s dt now hw hd]
    cases hc : checkCollisions (movedState s dt) with
    | some im =>
      simp only [hc]
      rcases applyBounce_cases _ dt now with heq | ⟨x1, y1, heq⟩ <;> rw [heq]
      · exact wrapX_bound _ _ _ hW hhw
      · exact wrapXSeq_bound _ _ _ hW hhw
    | none =>
      simp only [hc]
      rcases applyBounce_cases _ dt now with heq | ⟨x1, y1, heq⟩ <;> rw [heq]
      · exact wrapX_bound _ _ _ hW hhw
      · exact wrapXSeq_bound _ _ _ hW hhw
  · intro x hx
    unfold wrapX
    rw [if_pos hx]
  · intro x hx
    unfold wrapX
    rw [if_neg (by linarith), if_pos hx]
  · intro x hx1 hx2
    unfold wrapX
    rw [if_neg (by linarith), if_neg (by linarith)]

/-- Witness for C8: the vertical bound holds after one physics tick from the
initial state on the 800 by 600 canvas. -/
theorem boundary_handling_witness :
    45 ≤ (updateCar (initState 800 600) 0 0).car.y ∧
      (updateCar (initState 800 600) 0 0).car.y ≤ (initState 800 600).canvasHeight - 45 :=
  (boundary_handling (initState 800 600) 0 0 rfl rfl
    (by norm_num [initState, setInitialCarPosition, recomputeParkingLayout])
    (by norm_num [initState, setInitialCarPosition, recomputeParkingLayout])
    (by norm_num [initState, setInitialCarPosition, recomputeParkingLayout])).1

/-! ### C9: speed and steer bounds on all reachable states -/

lemma speedAfterInput_bound (c : Car) (k : Keys) (dt : ℝ)
    (hc : CarInv c) (hdt : 0 ≤ dt) : |speedAfterInput c k dt| ≤ c.maxSpeed := by
  obtain ⟨hms, hmst, hacc, hfr, hscr, hsp, hst⟩ := hc
  have h1 := abs_le.mp hsp
  unfold speedAfterInput
  split_ifs with k1 k2 s1 s2
  · rw [abs_le]
    constructor
    · apply le_min
      · nlinarith [mul_nonneg hacc hdt]
      · linarith
    · exact min_le_right _ _
  · rw [abs_le]
    constructor
    · exact le_max_right _ _
    · apply max_le
      · nlinarith [mul_nonneg hacc hdt]
      · linarith
  · rw [abs_le]
    constructor
    · have h2 : (0:ℝ) ≤ max 0 (c.speed - c.friction * dt) := le_max_left _ _
      linarith
    · apply max_le
      · linarith
      · nlinarith [mul_nonneg hfr hdt]
  · rw [abs_le]
    constructor
    · apply le_min
      · linarith
      · nlinarith [mul_nonneg hfr hdt]
    · have h2 : min 0 (c.speed + c.friction * dt) ≤ 0 := min_le_left _ _
      linarith
  · exact hsp

lemma steerAfterInput_bound (c : Car) (k : Keys) (dt : ℝ)
    (hc : CarInv c) (hdt : 0 ≤ dt) : |steerAfterInput c k dt| ≤ c.maxSteerAngle := by
  obtain ⟨hms, hmst, hacc, hfr, hscr, hsp, hst⟩ := hc
  have h1 := abs_le.mp hst
  unfold steerAfterInput
  split_ifs with k1 k2
  · rw [abs_le]
    constructor
    · exact le_max_right _ _
    · apply max_le
      · nlinarith [mul_nonneg hscr hdt]
      · linarith
  · rw [abs_le]
    constructor
    · apply le_min
      · nlinarith [mul_nonneg hscr hdt]
      · linarith
    · exact min_le_right _ _
  · exact hst

lemma CarInv_speed_zero (c : Car) (hc : CarInv c) : CarInv { c with speed := 0 } := by
  obtain ⟨hms, hmst, hacc, hfr, hscr, hsp, hst⟩ := hc
  exact ⟨hms, hmst, hacc, hfr, hscr, by simpa using hms, hst⟩

lemma CarInv_drag (c : Car) (x y : ℝ) (hc : CarInv c) :
    CarInv { c with speed := 0, x := x, y := y, collided := false } := by
  obtain ⟨hms, hmst, hacc, hfr, hscr, hsp, hst⟩ := hc
  exact ⟨hms, hmst, hacc, hfr, hscr, by simpa using hms, hst⟩

lemma CarInv_dragMove (c : Car) (x y : ℝ) (hc : CarInv c) :
    CarInv { c with x := x, y := y, collided := false } := by
  obtain ⟨hms, hmst, hacc, hfr, hscr, hsp, hst⟩ := hc
  exact ⟨hms, hmst, hacc, hfr, hscr, hsp, hst⟩

lemma CarInv_set_xy (c : Car) (x y : ℝ) (hc : CarInv c) :
    CarInv { c with x := x, y := y } := by
  obtain ⟨hms, hmst, hacc, hfr, hscr, hsp, hst⟩ := hc
  exact ⟨hms, hmst, hacc, hfr, hscr, hsp, hst⟩

lemma CarInv_rollback (c : Car) (x y : ℝ) (hc : CarInv c) :
    CarInv { c with x := x, y := y, speed := 0, collided := true } := by
  obtain ⟨hms, hmst, hacc, hfr, hscr, hsp, hst⟩ := hc
  exact ⟨hms, hmst, hacc, hfr, hscr, by simpa using hms, hst⟩

lemma CarInv_collided_false (c : Car) (hc : CarInv c) :
    CarInv { c with collided := false } := by
  obtain ⟨hms, hmst, hacc, hfr, hscr, hsp, hst⟩ := hc
  exact ⟨hms, hmst, hacc, hfr, hscr, hsp, hst⟩

lemma CarInv_reset (c : Car) (x y : ℝ) (hc : CarInv c) :
    CarInv { c with x := x, y := y, speed := 0, steerAngle := 0,
                    lastDirection := 1, angle := 0 } := by
  obtain ⟨hms, hmst, hacc, hfr, hscr, hsp, hst⟩ := hc
  exact ⟨hms, hmst, hacc, hfr, hscr, by simpa using hms, by simpa using hmst⟩

lemma movedState_carInv (s : GameState) (dt : ℝ) (hc : CarInv s.car) (hdt : 0 ≤ dt) :
    CarInv (movedState s dt).car := by
  obtain ⟨hms, hmst, hacc, hfr, hscr, hsp, hst⟩ := hc
  exact ⟨hms, hmst, hacc, hfr, hscr,
    speedAfterInput_bound s.car s.keys dt ⟨hms, hmst, hacc, hfr, hscr, hsp, hst⟩ hdt,
    steerAfterInput_bound s.car s.keys dt ⟨hms, hmst, hacc, hfr, hscr, hsp, hst⟩ hdt⟩

lemma applyBounce_car_shape (s : GameState) (dt now : ℝ) :
    ∃ x y, (applyBounce s dt now).car = { s.car with x := x, y := y } := by
  rcases applyBounce_cases s dt now with h | ⟨x1, y1, h⟩
  · rw [h]
    exact ⟨s.car.x, s.car.y, rfl⟩
  · rw [h]
    exact ⟨_, _, rfl⟩

lemma updateCar_carInv (s : GameState) (dt now : ℝ) (hc : CarInv s.car) (hdt : 0 ≤ dt) :
    CarInv (updateCar s dt now).car := by
  rcases hwr : s.winResetAtMs with _ | t
  · by_cases hd : s.isDragging = true
    · unfold updateCar
      rw [hwr, hd, if_pos rfl]
      exact CarInv_drag s.car _ _ hc
    · have hd2 : s.isDragging = false := by
        cases h : s.isDragging
        · rfl
        · exact absurd h hd
      rw [updateCar_eq_physics s dt now hwr hd2]
      have hmoved := movedState_carInv s dt hc hdt
      cases hcc : checkCollisions (movedState s dt) with
      | some im =>
        simp only [hcc]
        obtain ⟨x, y, hshape⟩ := applyBounce_car_shape _ dt now
        rw [hshape]
        exact CarInv_rollback (movedState s dt).car x y hmoved
      | none =>
        simp only [hcc]
        obtain ⟨x, y, hshape⟩ := applyBounce_car_shape _ dt now
        rw [hshape]
        exact CarInv_dragMove (movedState s dt).car x y hmoved
  · unfold updateCar
    rw [hwr]
    exact CarInv_speed_zero s.car hc

lemma setInitial_carInv (s : GameState) (hc : CarInv s.car) :
    CarInv (setInitialCarPosition s).car := by
  unfold setInitialCarPosition
  exact CarInv_reset s.car _ _ hc

lemma checkParking_carInv (s : GameState) (now : ℝ) (hc : CarInv s.car) :
    CarInv (checkParking s now).car := by
  obtain ⟨b, r, hshape⟩ := winLatchStep_shape s now
  unfold checkParking
  rw [hshape]
  rcases r with _ | t
  · rw [winTimerStep_none _ _ rfl]
    exact hc
  · by_cases hn : t ≤ now
    · rw [winTimerStep_fire _ _ t rfl hn]
      show CarInv (setInitialCarPosition (recomputeParkingLayout _)).car
      apply setInitial_carInv
      rw [recompute_car]
      exact hc
    · rw [winTimerStep_wait _ _ t rfl hn]
      exact hc

lemma initState_carInv (cw ch : ℝ) : CarInv (initState cw ch).car := by
  have hpi : (0:ℝ) ≤ Real.pi / 6 := by positivity
  unfold initState setInitialCarPosition
  rw [recompute_car]
  refine ⟨by norm_num, by exact hpi, by norm_num, by norm_num, by norm_num, ?_, ?_⟩
  · show |(0:ℝ)| ≤ 360
    norm_num
  · show |(0:ℝ)| ≤ Real.pi / 6
    simpa using hpi

lemma reachable_carInv (s : GameState) (h : Reachable s) : CarInv s.car := by
  induction h with
  | init cw ch => exact initState_carInv cw ch
  | frame s dt now now2 h hdt ih =>
    exact checkParking_carInv _ _ (updateCar_carInv _ _ _ ih hdt)
  | setKeys s k h ih => exact ih
  | dragStart s h ih => exact CarInv_speed_zero _ ih
  | dragMove s tx ty h hd ih => exact CarInv_dragMove _ _ _ ih
  | dragEnd s h ih => exact ih
  | setGap s g h hg1 hg2 ih =>
    show CarInv (recomputeParkingLayout _).car
    rw [recompute_car]
    exact ih

/-- C9: in every state reachable from the constructor by animation frames,
key events, dragging and gap changes, the steer angle is bounded by
`maxSteerAngle` and the speed by `maxSpeed`. -/
theorem reachable_speed_steer_bounded (s : GameState) (h : Reachable s) :
    |s.car.steerAngle| ≤ s.car.maxSteerAngle ∧ |s.car.speed| ≤ s.car.maxSpeed := by
  have hc := reachable_carInv s h
  exact ⟨hc.2.2.2.2.2.2, hc.2.2.2.2.2.1⟩

/-- Witness for C9: the initial state on the 800 by 600 canvas is reachable
and satisfies both bounds. -/
theorem reachable_speed_steer_bounded_witness :
    |(initState 800 600).car.steerAngle| ≤ (initState 800 600).car.maxSteerAngle ∧
      |(initState 800 600).car.speed| ≤ (initState 800 600).car.maxSpeed :=
  reachable_speed_steer_bounded (initState 800 600) (Reachable.init 800 600)

/-! ### C2: rollback and same-tick bounce -/

lemma mtvGo_step_pos_none (A B : List Point) (d ax : Point) (rest : List Point) (ov : ℝ)
    (hov : overlapOn A B ax = ov) (h : 0 < ov) :
    mtvGo A B d (ax :: rest) none = mtvGo A B d rest (some (ov, orientAxis d ax)) := by
  simp only [mtvGo, hov]
  rw [if_neg (not_le.mpr h)]

lemma mtvGo_step_keep (A B : List Point) (d ax : Point) (rest : List Point)
    (s : ℝ) (a : Point) (ov : ℝ)
    (hov : overlapOn A B ax = ov) (h : 0 < ov) (hge : ¬ ov < s) :
    mtvGo A B d (ax :: rest) (some (s, a)) = mtvGo A B d rest (some (s, a)) := by
  simp only [mtvGo, hov]
  rw [if_neg (not_le.mpr h), if_neg hge]

lemma wMoved : movedState wState (1/100) = wState := by
  have hsp : speedAfterInput wState.car wState.keys (1/100) = 0 := by
    unfold speedAfterInput wState
    norm_num
  have hst : steerAfterInput wState.car wState.keys (1/100) = 0 := by
    unfold steerAfterInput wState
    norm_num
  have hld : lastDirectionAfterInput wState.car wState.keys = 1 := by
    unfold lastDirectionAfterInput wState
    norm_num
  unfold movedState
  dsimp only
  rw [hsp, hst, hld]
  have han : angleAfterTurn wState.car.angle 0 0 wState.car.wheelbase (1/100) = 0 := by
    unfold angleAfterTurn
    rw [if_neg (by norm_num)]
    rfl
  rw [han, mul_zero, zero_mul, add_zero, mul_zero, zero_mul, add_zero]
  rfl

lemma wPoly_eval : playerPoly wState = wPlayerPts := by
  unfold playerPoly wState getChamferedRectPolygon wPlayerPts
  norm_num [Real.cos_zero, Real.sin_zero, min_def, max_def, Point.ext_iff]

lemma wCurb_eval :
    getRectangleCorners wState.centerX
      (wState.centerY + wState.curbOffsetY + wState.curbHeight / 2)
      wState.curbWidth wState.curbHeight 0 = wCurbPts := by
  unfold wState getRectangleCorners wCurbPts
  norm_num [Real.cos_zero, Real.sin_zero, Point.ext_iff]

lemma sqrt5476 : Real.sqrt 5476 = 74 := sqrt_eval 5476 74 (by norm_num) (by norm_num)

lemma sqrt100 : Real.sqrt 100 = 10 := sqrt_eval 100 10 (by norm_num) (by norm_num)

lemma sqrt1089 : Real.sqrt 1089 = 33 := sqrt_eval 1089 33 (by norm_num) (by norm_num)

lemma sqrt640000 : Real.sqrt 640000 = 800 := sqrt_eval 640000 800 (by norm_num) (by norm_num)

lemma sqrt900 : Real.sqrt 900 = 30 := sqrt_eval 900 30 (by norm_num) (by norm_num)

lemma wAxes_player : getAxes wPlayerPts =
    [Point.mk 0 1, Point.mk (-3/5) (4/5), Point.mk (-1) 0, Point.mk (-3/5) (-4/5),
     Point.mk 0 (-1), Point.mk (3/5) (-4/5), Point.mk 1 0, Point.mk (3/5) (4/5)] := by
  unfold wPlayerPts
  norm_num [getAxes, cyc, axisForEdge, sqrt5476, sqrt100, sqrt1089, Point.ext_iff]

lemma wAxes_curb : getAxes wCurbPts =
    [Point.mk 0 1, Point.mk (-1) 0, Point.mk 0 (-1), Point.mk 1 0] := by
  unfold wCurbPts
  norm_num [getAxes, cyc, axisForEdge, sqrt640000, sqrt900, Point.ext_iff]

lemma wDelta : centerDelta wPlayerPts wCurbPts = Point.mk 0 9 := by
  unfold centerDelta getPolygonCenter wPlayerPts wCurbPts
  norm_num [max_def, Point.ext_iff]

lemma wOv1 : overlapOn wPlayerPts wCurbPts (Point.mk 0 1) = 57/2 := by
  unfold overlapOn projectPointsOnAxis wPlayerPts wCurbPts
  norm_num [min_def, max_def]

lemma wOv2 : overlapOn wPlayerPts wCurbPts (Point.mk (-3/5) (4/5)) = 402/5 := by
  unfold overlapOn projectPointsOnAxis wPlayerPts wCurbPts
  norm_num [min_def, max_def]

lemma wOv3 : overlapOn wPlayerPts wCurbPts (Point.mk (-1) 0) = 90 := by
  unfold overlapOn projectPointsOnAxis wPlayerPts wCurbPts
  norm_num [min_def, max_def]

lemma wOv4 : overlapOn wPlayerPts wCurbPts (Point.mk (-3/5) (-4/5)) = 402/5 := by
  unfold overlapOn projectPointsOnAxis wPlayerPts wCurbPts
  norm_num [min_def, max_def]

lemma wOv5 : overlapOn wPlayerPts wCurbPts (Point.mk 0 (-1)) = 57/2 := by
  unfold overlapOn projectPointsOnAxis wPlayerPts wCurbPts
  norm_num [min_def, max_def]

lemma wOv6 : overlapOn wPlayerPts wCurbPts (Point.mk (3/5) (-4/5)) = 402/5 := by
  unfold overlapOn projectPointsOnAxis wPlayerPts wCurbPts
  norm_num [min_def, max_def]

lemma wOv7 : overlapOn wPlayerPts wCurbPts (Point.mk 1 0) = 90 := by
  unfold overlapOn projectPointsOnAxis wPlayerPts wCurbPts
  norm_num [min_def, max_def]

lemma wOv8 : overlapOn wPlayerPts wCurbPts (Point.mk (3/5) (4/5)) = 402/5 := by
  unfold overlapOn projectPointsOnAxis wPlayerPts wCurbPts
  norm_num [min_def, max_def]

lemma wOrient : orientAxis (Point.mk 0 9) (Point.mk 0 1) = Point.mk 0 1 := by
  unfold orientAxis
  norm_num

lemma wMTV : polygonCollisionMTV wPlayerPts wCurbPts =
    MTVResult.collision (Point.mk 0 (57/2)) := by
  unfold polygonCollisionMTV
  rw [wAxes_player, wAxes_curb, wDelta]
  simp only [List.cons_append, List.nil_append]
  rw [mtvGo_step_pos_none _ _ _ _ _ _ wOv1 (by norm_num), wOrient]
  rw [mtvGo_step_keep _ _ _ _ _ _ _ _ wOv2 (by norm_num) (by norm_num)]
  rw [mtvGo_step_keep _ _ _ _ _ _ _ _ wOv3 (by norm_num) (by norm_num)]
  rw [mtvGo_step_keep _ _ _ _ _ _ _ _ wOv4 (by norm_num) (by norm_num)]
  rw [mtvGo_step_keep _ _ _ _ _ _ _ _ wOv5 (by norm_num) (by norm_num)]
  rw [mtvGo_step_keep _ _ _ _ _ _ _ _ wOv6 (by norm_num) (by norm_num)]
  rw [mtvGo_step_keep _ _ _ _ _ _ _ _ wOv7 (by norm_num) (by norm_num)]
  rw [mtvGo_step_keep _ _ _ _ _ _ _ _ wOv8 (by norm_num) (by norm_num)]
  rw [mtvGo_step_keep _ _ _ _ _ _ _ _ wOv1 (by norm_num) (by norm_num)]
  rw [mtvGo_step_keep _ _ _ _ _ _ _ _ wOv3 (by norm_num) (by norm_num)]
  rw [mtvGo_step_keep _ _ _ _ _ _ _ _ wOv5 (by norm_num) (by norm_num)]
  rw [mtvGo_step_keep _ _ _ _ _ _ _ _ wOv7 (by norm_num) (by norm_num)]
  norm_num [mtvGo, mtvFinal, Point.ext_iff]

lemma wChk : checkCollisions (movedState wState (1/100)) =
    some (LastCollision.withCurb, Point.mk 0 (57/2)) := by
  rw [wMoved]
  unfold checkCollisions
  rw [wPoly_eval]
  rw [show wState.parkedCars = [] from rfl]
  unfold npcCollideLoop
  rw [wCurb_eval]
  dsimp only
  rw [wMTV]

/-- C2 (amended): on a physics tick where the collision check reports
contact, the position is rolled back to the pre-tick position and the speed
zeroed, and the heading and steer angle keep the values computed during the
tick; but the bounce impulse scheduled by the same collision is applied
later in the same tick, so the final position is the rolled-back position
(wrapped and clamped) offset by `collisionBounceSpeed * dt` along the bounce
direction (and wrapped and clamped again) rather than exactly the pre-tick
position. -/
theorem collision_rollback_bounce (s : GameState) (dt now : ℝ)
    (info : LastCollision) (m : Point)
    (hw : s.winResetAtMs = none) (hd : s.isDragging = false)
    (hcc : checkCollisions (movedState s dt) = some (info, m))
    (hdur : 0 < s.collisionBounceDurationMs) :
    (updateCar s dt now).car.speed = 0 ∧
    (updateCar s dt now).car.collided = true ∧
    (updateCar s dt now).car.steerAngle = steerAfterInput s.car s.keys dt ∧
    (updateCar s dt now).car.angle =
      angleAfterTurn s.car.angle (speedAfterInput s.car s.keys dt)
        (steerAfterInput s.car s.keys dt) s.car.wheelbase dt ∧
    (updateCar s dt now).car.x =
      wrapXSeq s.canvasWidth (s.car.width / 2)
        (wrapX s.canvasWidth (s.car.width / 2) s.car.x +
          (bounceDirOf m).x * (s.collisionBounceSpeed * dt)) ∧
    (updateCar s dt now).car.y =
      clampY s.canvasHeight
        (clampY s.canvasHeight s.car.y +
          (bounceDirOf m).y * (s.collisionBounceSpeed * dt)) := by
  rw [updateCar_eq_physics s dt now hw hd]
  simp only [hcc]
  unfold applyBounce
  dsimp only
  rw [if_pos (show now < now + s.collisionBounceDurationMs by linarith)]
  rw [show (movedState s dt).collisionBounceDurationMs = s.collisionBounceDurationMs from rfl,
    show (movedState s dt).collisionBounceSpeed = s.collisionBounceSpeed from rfl,
    show (movedState s dt).canvasWidth = s.canvasWidth from rfl,
    show (movedState s dt).canvasHeight = s.canvasHeight from rfl,
    show (movedState s dt).car.width = s.car.width from rfl]
  have ht : max 0 (min 1 ((now + s.collisionBounceDurationMs - now) /
      s.collisionBounceDurationMs)) = 1 := by
    rw [show now + s.collisionBounceDurationMs - now = s.collisionBounceDurationMs by ring,
      div_self (ne_of_gt hdur), min_self, max_eq_right zero_le_one]
  rw [ht]
  refine ⟨rfl, rfl, rfl, rfl, ?_, ?_⟩
  · ring_nf
  · ring_nf

/-- Witness for C2 (amended): the concrete collision tick from `wState`
(stationary car overlapping the curb, dt = 1/100, clock at 0). -/
theorem collision_rollback_bounce_witness :
    (updateCar wState (1/100) 0).car.speed = 0 ∧
    (updateCar wState (1/100) 0).car.collided = true ∧
    (updateCar wState (1/100) 0).car.steerAngle =
      steerAfterInput wState.car wState.keys (1/100) ∧
    (updateCar wState (1/100) 0).car.angle =
      angleAfterTurn wState.car.angle (speedAfterInput wState.car wState.keys (1/100))
        (steerAfterInput wState.car wState.keys (1/100)) wState.car.wheelbase (1/100) ∧
    (updateCar wState (1/100) 0).car.x =
      wrapXSeq wState.canvasWidth (wState.car.width / 2)
        (wrapX wState.canvasWidth (wState.car.width / 2) wState.car.x +
          (bounceDirOf (Point.mk 0 (57/2))).x * (wState.collisionBounceSpeed * (1/100))) ∧
    (updateCar wState (1/100) 0).car.y =
      clampY wState.canvasHeight
        (clampY wState.canvasHeight wState.car.y +
          (bounceDirOf (Point.mk 0 (57/2))).y * (wState.collisionBounceSpeed * (1/100))) :=
  collision_rollback_bounce wState (1/100) 0 LastCollision.withCurb (Point.mk 0 (57/2))
    rfl rfl wChk (by norm_num [wState])

lemma wBounceDir : bounceDirOf (Point.mk 0 (57/2)) = Point.mk 0 (-1) := by
  unfold bounceDirOf
  dsimp only
  rw [show ((0:ℝ)^2 + (57/2)^2) = (57/2)^2 by norm_num,
    Real.sqrt_sq (by norm_num : (0:ℝ) ≤ 57/2)]
  norm_num [Point.ext_iff]

/-- Counterexample for C2: in the collision tick from `wState` the collision
is reported, yet at the end of the tick the vertical position is 2319/5 =
463.8, not the pre-tick 466: the same-tick bounce impulse has moved the car
off its rolled-back position. -/
theorem collision_rollback_counterexample :
    (updateCar wState (1/100) 0).car.collided = true ∧
    (updateCar wState (1/100) 0).car.y = 2319/5 ∧
    wState.car.y = 466 := by
  rw [updateCar_eq_physics wState (1/100) 0 rfl rfl]
  simp only [wChk]
  unfold applyBounce
  dsimp only
  rw [if_pos (show (0:ℝ) < 0 + wState.collisionBounceDurationMs by norm_num [wState])]
  refine ⟨rfl, ?_, rfl⟩
  rw [wBounceDir]
  show clampY wState.canvasHeight
      (clampY wState.canvasHeight wState.car.y +
        (Point.mk 0 (-1)).y * (wState.collisionBounceSpeed *
          (max 0 (min 1 ((0 + wState.collisionBounceDurationMs - 0) /
            wState.collisionBounceDurationMs)) *
           max 0 (min 1 ((0 + wState.collisionBounceDurationMs - 0) /
            wState.collisionBounceDurationMs))) * (1/100))) = 2319/5
  unfold clampY wState
  norm_num [min_def, max_def]
